import Mathlib

/-!
Verification development for the Twitch-monitoring core of DiscordTwitchBot
(`src/twitch/twitch.go`).

The Go code is embedded shallowly:

* Go maps (`map[string]V`) become association lists `List (String × V)`
  with lookup / insert / erase operations (`lookupA`, `insertA`, `eraseA`);
  a Go map's keys are unique, which on this representation is the
  hypothesis `(l.map Prod.fst).Nodup` where a proof needs it.
* `time.Time` values become `Nat` timestamps, with `0` playing the role of
  the zero `time.Time{}` (`IsZero`), and `time.Since(t) > D` at current
  time `now` becoming `now - t > D` on `Nat`.
* The external collaborators (Helix client, Discord session, disk) are
  oracles: `validateAndRefreshAuthToken` is a boolean input, `GetUsers`
  and `GetStreams` responses are inputs, a dispatched Discord message is
  an element of an emitted `Notif` list, and `utils.WriteGobToDisk` is
  modelled by returning the registry value written (`Option Registry`,
  `none` when the code performs no write) together with an association
  list `Disk` for save/load round trips.
-/

set_option maxHeartbeats 1000000

namespace DiscordTwitchBot

/-- Go struct `discordChannel` (twitch.go lines 17-20): one Discord
channel subscribed to a Twitch channel, with its live-notification flag. -/
structure DiscordChannel where
  channelID : String
  liveNotificationSent : Bool
deriving Repr, DecidableEq, Inhabited

/-- Go struct `twitchChannelInfo` (twitch.go lines 22-31): per-Twitch-channel
state.  `discordChannels` models the Go map from guild ID to the slice of
subscribed `discordChannel`s. -/
structure TwitchChannelInfo where
  displayName : String
  logoURL : String
  streamTitle : String
  gameID : String
  thumbnailURL : String
  startTime : Nat
  endTime : Nat
  discordChannels : List (String × List DiscordChannel)
deriving Repr, DecidableEq, Inhabited

/-- The registry: Go's `map[string]*twitchChannelInfo`. -/
abbrev Registry := List (String × TwitchChannelInfo)

/-- Go struct `Session` (twitch.go lines 33-38); the `client` handle is an
external collaborator and is not part of the state we reason about. -/
structure Session where
  name : String
  isConnected : Bool
  twitchData : Registry
deriving Repr, DecidableEq, Inhabited

/-- Association-list model of Go map lookup `m[k]` (returning `none` for a
missing key, Go's zero value). -/
def lookupA {α : Type} : List (String × α) → String → Option α
  | [], _ => none
  | (k', v) :: rest, k => if k' = k then some v else lookupA rest k

/-- Association-list model of Go map assignment `m[k] = v`: replace the
entry in place, or append a fresh entry. -/
def insertA {α : Type} : List (String × α) → String → α → List (String × α)
  | [], k, v => [(k, v)]
  | (k', v') :: rest, k, v =>
      if k' = k then (k, v) :: rest else (k', v') :: insertA rest k v

/-- Association-list model of Go's `delete(m, k)`. -/
def eraseA {α : Type} : List (String × α) → String → List (String × α)
  | [], _ => []
  | (k', v) :: rest, k => if k' = k then eraseA rest k else (k', v) :: eraseA rest k

/-- Go helper `remove` (twitch.go lines 338-341): swap element `i` with the
last element and truncate (order-irrelevant O(1) removal). -/
def remove (s : List DiscordChannel) (i : Nat) : List DiscordChannel :=
  (s.set i (s.getD (s.length - 1) default)).dropLast

/-- The scan inside `getChannelIdx` (twitch.go lines 235-239): index of the
first subscription with the given Discord channel ID. -/
def findSubIdx (discordChannelID : String) : List DiscordChannel → Option Nat
  | [] => none
  | d :: rest =>
      if d.channelID = discordChannelID then some 0
      else (findSubIdx discordChannelID rest).map (· + 1)

/-- Go method `Session.getChannelIdx` (twitch.go lines 231-241): `-1` when
the Twitch channel is absent (nil map entry) or no subscription in the
guild's slice matches, else the index of the match. -/
def getChannelIdx (t : Session) (twitchID discordGuildID discordChannelID : String) : Int :=
  match lookupA t.twitchData twitchID with
  | none => -1
  | some info =>
      match findSubIdx discordChannelID ((lookupA info.discordChannels discordGuildID).getD []) with
      | none => -1
      | some i => (i : Int)

/-- Outcomes of `Session.RegisterChannel`; `nilDeref` marks the Go
nil-pointer dereference that would occur if the subscription-append step
ran with the Twitch channel absent (unreachable from `registerChannel`). -/
inductive RegisterResult where
  | ok
  | errTwitchUserDoesNotExist
  | errInvalidToken
  | errTwitchUserRegistered
  | nilDeref
deriving Repr, DecidableEq

/-- One user record of a Helix `GetUsers` response. -/
structure HelixUser where
  displayName : String
  profileImageURL : String
deriving Repr, DecidableEq, Inhabited

/-- The append step of `Session.RegisterChannel` (twitch.go lines
136-140): add a fresh subscription with `LiveNotificationSent = false` to
the guild's slice of the channel's guild map. -/
def withNewSub (info : TwitchChannelInfo) (discordGuildID discordChannelID : String) :
    TwitchChannelInfo :=
  { info with discordChannels := (insertA info.discordChannels discordGuildID
      (((lookupA info.discordChannels discordGuildID).getD [])
        ++ [{ channelID := discordChannelID, liveNotificationSent := false }])) }

/-- Second half of `Session.RegisterChannel` (twitch.go lines 134-150):
the Twitch channel is (supposed to be) present; append a new subscription
with `LiveNotificationSent = false` unless the (guild, channel) pair is
already subscribed, then write the registry to disk. -/
def registerKnown (t : Session) (twitchID discordGuildID discordChannelID : String) :
    RegisterResult × Session × Option Registry :=
  if getChannelIdx t twitchID discordGuildID discordChannelID < 0 then
    match lookupA t.twitchData twitchID with
    | none => (.nilDeref, t, none)
    | some info =>
        let data' := insertA t.twitchData twitchID (withNewSub info discordGuildID discordChannelID)
        (.ok, { t with twitchData := data' }, some data')
  else (.errTwitchUserRegistered, t, none)

/-- The fresh `twitchChannelInfo` entry `RegisterChannel` creates for a
not-yet-known Twitch channel (twitch.go lines 124-128). -/
def newChannelInfo (u : HelixUser) : TwitchChannelInfo :=
  { displayName := u.displayName
    logoURL := u.profileImageURL
    streamTitle := ""
    gameID := ""
    thumbnailURL := ""
    startTime := 0
    endTime := 0
    discordChannels := [] }

/-- Go method `Session.RegisterChannel` (twitch.go lines 108-151).
`tokenValid` is the result of `validateAndRefreshAuthToken`;
`getUsersErr` is whether the `GetUsers` call returned an error (the code
only logs it); `respUsers` is the response's user list. -/
def registerChannel (t : Session) (tokenValid getUsersErr : Bool) (respUsers : List HelixUser)
    (twitchID discordGuildID discordChannelID : String) :
    RegisterResult × Session × Option Registry :=
  match lookupA t.twitchData twitchID with
  | none =>
      if tokenValid then
        match respUsers with
        | [] => (.errTwitchUserDoesNotExist, t, none)
        | u :: _ =>
            let t1 : Session := { t with twitchData := insertA t.twitchData twitchID (newChannelInfo u) }
            registerKnown t1 twitchID discordGuildID discordChannelID
      else (.errInvalidToken, t, none)
  | some _ => registerKnown t twitchID discordGuildID discordChannelID

/-- Go method `Session.UnregisterChannel` (twitch.go lines 178-201):
remove the matching subscription (swap-with-last), delete the guild entry
if its slice became empty, delete the Twitch channel if its guild map
became empty, and persist; `false` with no mutation and no write when no
subscription matches. -/
def unregisterChannel (t : Session) (twitchID discordGuildID discordChannelID : String) :
    Bool × Session × Option Registry :=
  match lookupA t.twitchData twitchID with
  | none => (false, t, none)
  | some info =>
      let subs := (lookupA info.discordChannels discordGuildID).getD []
      match findSubIdx discordChannelID subs with
      | none => (false, t, none)
      | some i =>
          let subs' := remove subs i
          let dcs' := if subs'.isEmpty
            then eraseA info.discordChannels discordGuildID
            else insertA info.discordChannels discordGuildID subs'
          let data' := if dcs'.isEmpty
            then eraseA t.twitchData twitchID
            else insertA t.twitchData twitchID { info with discordChannels := dcs' }
          (true, { t with twitchData := data' }, some data')

/-- Go function `SetGuildActive` (twitch.go lines 154-156). -/
def setGuildActive (guildStatus : List (String × Bool)) (guildID : String) : List (String × Bool) :=
  insertA guildStatus guildID true

/-- Go function `SetGuildInactive` (twitch.go lines 159-161). -/
def setGuildInactive (guildStatus : List (String × Bool)) (guildID : String) : List (String × Bool) :=
  insertA guildStatus guildID false

/-- Go function `SetGuildUnavailable` (twitch.go lines 164-166). -/
def setGuildUnavailable (guildStatus : List (String × Bool)) (guildID : String) : List (String × Bool) :=
  eraseA guildStatus guildID

/-- The disk seen by `utils.WriteGobToDisk` / `readGobFromDisk`: one gob
snapshot per session name. -/
abbrev Disk := List (String × Registry)

/-- Gob write: whole-file overwrite of the snapshot for `name`. -/
def writeGobToDisk (disk : Disk) (name : String) (reg : Registry) : Disk :=
  insertA disk name reg

/-- Gob read (twitch.go lines 330-336): `none` models the `os.ErrNotExist`
/ decode-failure path. -/
def readGobFromDisk (disk : Disk) (name : String) : Option Registry :=
  lookupA disk name

/-- The per-channel effect of `Close`'s pruning loop (twitch.go lines
53-59): delete each guild whose `guildStatus` entry is present with value
`false` from the channel's guild map. -/
def pruneInfo (guildStatus : List (String × Bool)) (info : TwitchChannelInfo) : TwitchChannelInfo :=
  { info with discordChannels :=
      info.discordChannels.filter (fun q => decide (lookupA guildStatus q.1 ≠ some false)) }

/-- Go method `Session.Close` (twitch.go lines 50-62): mark the session
disconnected, delete from every channel's guild map each guild whose
`guildStatus` entry is present with value `false`, then write the registry
to disk.  Returns the new session and the disk after the write. -/
def close (t : Session) (guildStatus : List (String × Bool)) (disk : Disk) : Session × Disk :=
  let pruned : Registry := t.twitchData.map (fun p => (p.1, pruneInfo guildStatus p.2))
  let t' : Session := { t with isConnected := false, twitchData := pruned }
  (t', writeGobToDisk disk t.name pruned)

/-- One stream record of a Helix `GetStreams` response. -/
structure HelixStream where
  userLogin : String
  title : String
  gameID : String
  thumbnailURL : String
  startedAt : Nat
  type : String
deriving Repr, DecidableEq, Inhabited

/-- Phase one of a `monitorChannels` cycle for one channel (twitch.go lines
269-287): if the response contains a live stream for this channel, copy
title / game / thumbnail / start time and zero the end time; otherwise
zero the start time and stamp the end time with `now` only if it is still
zero. -/
def updateChannelTimes (streams : List HelixStream) (now : Nat)
    (name : String) (info : TwitchChannelInfo) : TwitchChannelInfo :=
  match streams.find? (fun s => decide (s.userLogin = name ∧ s.type = "live")) with
  | some s =>
      { info with streamTitle := s.title, gameID := s.gameID,
                  thumbnailURL := s.thumbnailURL, startTime := s.startedAt, endTime := 0 }
  | none =>
      { info with startTime := 0, endTime := if info.endTime = 0 then now else info.endTime }

/-- Phase one of a `monitorChannels` cycle over the whole registry. -/
def updateTimes (streams : List HelixStream) (now : Nat) (data : Registry) : Registry :=
  data.map (fun p => (p.1, updateChannelTimes streams now p.1 p.2))

/-- A dispatched Discord message: the rich embed sent by
`ChannelMessageSendEmbed` on a confirmed-live transition, or the plain
text sent by `ChannelMessageSend` on a confirmed-offline transition.
`guildID` records which guild's subscription list the dispatch came from. -/
inductive Notif where
  | live (guildID discordChannelID displayName : String)
  | offline (guildID discordChannelID displayName : String)
deriving Repr, DecidableEq

/-- The inner live-notification loop (twitch.go lines 293-302): flip each
unsent subscription's flag to `true` and dispatch a rich notification. -/
def notifyLiveSubs (guildID displayName : String) :
    List DiscordChannel → List DiscordChannel × List Notif
  | [] => ([], [])
  | d :: rest =>
      let r := notifyLiveSubs guildID displayName rest
      if d.liveNotificationSent then (d :: r.1, r.2)
      else ({ d with liveNotificationSent := true } :: r.1,
            .live guildID d.channelID displayName :: r.2)

/-- The inner offline-notification loop (twitch.go lines 308-317): flip
each sent subscription's flag to `false` and dispatch a plain text
notification. -/
def notifyOfflineSubs (guildID displayName : String) :
    List DiscordChannel → List DiscordChannel × List Notif
  | [] => ([], [])
  | d :: rest =>
      let r := notifyOfflineSubs guildID displayName rest
      if d.liveNotificationSent then
        ({ d with liveNotificationSent := false } :: r.1,
         .offline guildID d.channelID displayName :: r.2)
      else (d :: r.1, r.2)

/-- The per-guild live loop (twitch.go lines 291-304): a guild's
subscriptions are processed only when its `guildStatus` entry is present
(`available`) and `true` (`connected`). -/
def notifyLiveGuilds (guildStatus : List (String × Bool)) (displayName : String) :
    List (String × List DiscordChannel) → List (String × List DiscordChannel) × List Notif
  | [] => ([], [])
  | (g, subs) :: rest =>
      let r := notifyLiveGuilds guildStatus displayName rest
      if lookupA guildStatus g = some true then
        let s := notifyLiveSubs g displayName subs
        ((g, s.1) :: r.1, s.2 ++ r.2)
      else ((g, subs) :: r.1, r.2)

/-- The per-guild offline loop (twitch.go lines 306-319). -/
def notifyOfflineGuilds (guildStatus : List (String × Bool)) (displayName : String) :
    List (String × List DiscordChannel) → List (String × List DiscordChannel) × List Notif
  | [] => ([], [])
  | (g, subs) :: rest =>
      let r := notifyOfflineGuilds guildStatus displayName rest
      if lookupA guildStatus g = some true then
        let s := notifyOfflineSubs g displayName subs
        ((g, s.1) :: r.1, s.2 ++ r.2)
      else ((g, subs) :: r.1, r.2)

/-- Phase two of a `monitorChannels` cycle for one channel (twitch.go
lines 289-321): the debounce evaluation.  A non-zero start time older than
`threshold` fires the live branch; otherwise a non-zero end time older
than `threshold` fires the offline branch. -/
def debounceStep (guildStatus : List (String × Bool)) (threshold now : Nat)
    (info : TwitchChannelInfo) : TwitchChannelInfo × List Notif :=
  if info.startTime ≠ 0 ∧ now - info.startTime > threshold then
    let r := notifyLiveGuilds guildStatus info.displayName info.discordChannels
    ({ info with discordChannels := r.1 }, r.2)
  else if info.endTime ≠ 0 ∧ now - info.endTime > threshold then
    let r := notifyOfflineGuilds guildStatus info.displayName info.discordChannels
    ({ info with discordChannels := r.1 }, r.2)
  else (info, [])

/-- One full `monitorChannels` cycle body under a valid token (twitch.go
lines 245-322): update every channel's timestamps from the `GetStreams`
response, then run the debounce evaluation on every channel, collecting
the dispatched notifications. -/
def monitorCycle (guildStatus : List (String × Bool)) (threshold now : Nat)
    (streams : List HelixStream) (data : Registry) : Registry × List Notif :=
  let data1 := updateTimes streams now data
  data1.foldr (fun p acc =>
    let r := debounceStep guildStatus threshold now p.2
    ((p.1, r.1) :: acc.1, r.2 ++ acc.2)) ([], [])

/-- Number of subscriptions registered for the exact key
(twitch channel, guild, Discord channel). -/
def countSubs (data : Registry) (twitchID discordGuildID discordChannelID : String) : Nat :=
  match lookupA data twitchID with
  | none => 0
  | some info =>
      ((lookupA info.discordChannels discordGuildID).getD []).countP
        (fun d => decide (d.channelID = discordChannelID))

/-- Guild of a dispatched notification. -/
def Notif.guild : Notif → String
  | .live g _ _ => g
  | .offline g _ _ => g

/-- Whether a notification is a live notification for the given
(guild, Discord channel) subscription key. -/
def Notif.isLiveFor : Notif → String → String → Bool
  | .live g' cid' _, g, cid => decide (g' = g) && decide (cid' = cid)
  | .offline _ _ _, _, _ => false

/-- Whether a notification is an offline notification for the given
(guild, Discord channel) subscription key. -/
def Notif.isOfflineFor : Notif → String → String → Bool
  | .offline g' cid' _, g, cid => decide (g' = g) && decide (cid' = cid)
  | .live _ _ _, _, _ => false

/-- A subscription with its live-notification flag raised. -/
def markSent (d : DiscordChannel) : DiscordChannel := { d with liveNotificationSent := true }

/-- A subscription with its live-notification flag cleared. -/
def markUnsent (d : DiscordChannel) : DiscordChannel := { d with liveNotificationSent := false }

/-- Number of subscriptions for key (guild, Discord channel) whose
`LiveNotificationSent` flag is still false. -/
def unsentCount (dcs : List (String × List DiscordChannel)) (g cid : String) : Nat :=
  ((lookupA dcs g).getD []).countP (fun d => decide (d.channelID = cid) && !d.liveNotificationSent)

/-- Number of subscriptions for key (guild, Discord channel) whose
`LiveNotificationSent` flag is true. -/
def sentCount (dcs : List (String × List DiscordChannel)) (g cid : String) : Nat :=
  ((lookupA dcs g).getD []).countP (fun d => decide (d.channelID = cid) && d.liveNotificationSent)

/-- Number of subscriptions under key (guild, Discord channel) in a
channel's guild map. -/
def subCount (dcs : List (String × List DiscordChannel)) (g cid : String) : Nat :=
  ((lookupA dcs g).getD []).countP (fun d => decide (d.channelID = cid))

/-- Number of occurrences of a (guild, Discord channel) key in a key
list. -/
def keyCount (keys : List (String × String)) (g cid : String) : Nat :=
  keys.countP (fun p => decide (p.1 = g ∧ p.2 = cid))

/-- Register one Twitch channel for each (guild, Discord channel) key in
turn (the command layer calling `RegisterChannel` repeatedly). -/
def registerAll (twitchID : String) (tokenValid getUsersErr : Bool)
    (respUsers : List HelixUser) : Session → List (String × String) → Session
  | t, [] => t
  | t, (g, cid) :: rest =>
      registerAll twitchID tokenValid getUsersErr respUsers
        (registerChannel t tokenValid getUsersErr respUsers twitchID g cid).2.1 rest

/-- Unregister one Twitch channel for each (guild, Discord channel) key
in turn (the command layer calling `UnregisterChannel` repeatedly). -/
def unregisterAll (twitchID : String) : Session → List (String × String) → Session
  | t, [] => t
  | t, (g, cid) :: rest =>
      unregisterAll twitchID (unregisterChannel t twitchID g cid).2.1 rest

/-- The per-channel effect of a sequence of monitor cycles on one
registered Twitch channel: each step is one (`GetStreams` response,
sample time) pair, applying phase one (`updateChannelTimes`) and phase
two (`debounceStep`) of the cycle and collecting the dispatched
notifications. -/
def channelCycles (gs : List (String × Bool)) (threshold : Nat) (name : String) :
    List (List HelixStream × Nat) → TwitchChannelInfo → TwitchChannelInfo × List Notif
  | [], info => (info, [])
  | (streams, now) :: rest, info =>
      let r := debounceStep gs threshold now (updateChannelTimes streams now name info)
      let r2 := channelCycles gs threshold name rest r.1
      (r2.1, r.2 ++ r2.2)

/-- Invariant stated by the spec: a `twitchChannelInfo` exists in the
registry only if it has at least one non-empty community-to-subscription
mapping. -/
abbrev registryInvariant (data : Registry) : Prop :=
  ∀ p ∈ data, ∃ q ∈ p.2.discordChannels, q.2 ≠ []

/-- The invariant the registration and unregistration code actually
maintains: every guild entry of every registered channel holds a
non-empty subscription list (and the guild map itself is non-empty). -/
abbrev strongRegistryInvariant (data : Registry) : Prop :=
  ∀ p ∈ data, p.2.discordChannels ≠ [] ∧ ∀ q ∈ p.2.discordChannels, q.2 ≠ []

/-- Helix user record used in the concrete scenarios. -/
def aliceUser : HelixUser := { displayName := "Alice", profileImageURL := "http://a" }

/-- An empty connected session, as after `New` with no snapshot plus
`GetAuthToken`. -/
def emptySession : Session := { name := "sess", isConnected := true, twitchData := [] }

/-- Reachable state: `alice` registered for guild `g1`, channel `c1`, on
an initially empty session. -/
def aliceState : Session :=
  (registerChannel emptySession true false [aliceUser] "alice" "g1" "c1").2.1

/-- Guild map where `g1` connected and then went inactive. -/
def g1InactiveStatus : List (String × Bool) := setGuildInactive (setGuildActive [] "g1") "g1"

/-- A channel observed live (start time 100) with one not-yet-notified
subscription from guild `g1`. -/
def liveInfo : TwitchChannelInfo :=
  { displayName := "Alice", logoURL := "http://a", streamTitle := "Speedrun", gameID := "cat1",
    thumbnailURL := "", startTime := 100, endTime := 0,
    discordChannels := [("g1", [{ channelID := "c1", liveNotificationSent := false }])] }

/-- A channel subscribed from guild `g2` with one notified subscription. -/
def g2Info : TwitchChannelInfo :=
  { displayName := "Alice", logoURL := "http://a", streamTitle := "", gameID := "",
    thumbnailURL := "", startTime := 0, endTime := 5,
    discordChannels := [("g2", [{ channelID := "c1", liveNotificationSent := true }])] }

/-- Session owning `g2Info` under the name `alice`. -/
def g2Session : Session := { name := "sess", isConnected := true, twitchData := [("alice", g2Info)] }

/-! Association-list lemmas. -/

theorem lookupA_insertA_self {α : Type} (l : List (String × α)) (k : String) (v : α) :
    lookupA (insertA l k v) k = some v := by
  induction l with
  | nil => simp [insertA, lookupA]
  | cons p rest ih =>
      by_cases h : p.1 = k
      · simp [insertA, h, lookupA]
      · simp [insertA, h, lookupA, ih]

theorem lookupA_insertA_ne {α : Type} (l : List (String × α)) (k k' : String) (v : α)
    (h : k' ≠ k) : lookupA (insertA l k v) k' = lookupA l k' := by
  induction l with
  | nil => simp [insertA, lookupA, Ne.symm h]
  | cons p rest ih =>
      by_cases hp : p.1 = k
      · have h2 : ¬p.1 = k' := by rw [hp]; exact Ne.symm h
        simp [insertA, hp, lookupA, Ne.symm h, h2]
      · simp only [insertA, hp, if_false, lookupA, ih]

theorem lookupA_eraseA_self {α : Type} (l : List (String × α)) (k : String) :
    lookupA (eraseA l k) k = none := by
  induction l with
  | nil => simp [eraseA, lookupA]
  | cons p rest ih =>
      obtain ⟨k', v⟩ := p
      by_cases hp : k' = k
      · simpa [eraseA, hp] using ih
      · simpa [eraseA, lookupA, hp] using ih

theorem lookupA_eraseA_ne {α : Type} (l : List (String × α)) (k k' : String)
    (h : k' ≠ k) : lookupA (eraseA l k) k' = lookupA l k' := by
  induction l with
  | nil => simp [eraseA, lookupA]
  | cons p rest ih =>
      obtain ⟨a, v⟩ := p
      by_cases hp : a = k
      · simpa [eraseA, lookupA, hp, Ne.symm h] using ih
      · by_cases hk' : a = k'
        · simp [eraseA, lookupA, hp, hk', h]
        · simpa [eraseA, lookupA, hp, hk'] using ih

theorem lookupA_eq_none_iff {α : Type} (l : List (String × α)) (k : String) :
    lookupA l k = none ↔ ∀ p ∈ l, p.1 ≠ k := by
  induction l with
  | nil => simp [lookupA]
  | cons p rest ih =>
      by_cases hp : p.1 = k
      · simp [lookupA, hp]
      · simp [lookupA, hp, ih]

theorem eraseA_eq_self {α : Type} (l : List (String × α)) (k : String)
    (h : lookupA l k = none) : eraseA l k = l := by
  induction l with
  | nil => rfl
  | cons p rest ih =>
      obtain ⟨a, v⟩ := p
      by_cases hp : a = k
      · simp [lookupA, hp] at h
      · simp only [lookupA, hp, if_false] at h
        simp [eraseA, hp, ih h]

theorem eraseA_insertA {α : Type} (l : List (String × α)) (k : String) (v : α) :
    eraseA (insertA l k v) k = eraseA l k := by
  induction l with
  | nil => simp [insertA, eraseA]
  | cons p rest ih =>
      obtain ⟨a, w⟩ := p
      by_cases hp : a = k
      · simp [insertA, hp, eraseA]
      · simp [insertA, hp, eraseA, ih]

theorem mem_insertA {α : Type} {l : List (String × α)} {k : String} {v : α} {p : String × α}
    (h : p ∈ insertA l k v) : p = (k, v) ∨ p ∈ l := by
  induction l with
  | nil => simpa [insertA] using h
  | cons q rest ih =>
      by_cases hq : q.1 = k
      · simp only [insertA, hq, if_true, List.mem_cons] at h
        rcases h with h | h
        · exact Or.inl h
        · exact Or.inr (List.mem_cons_of_mem q h)
      · simp only [insertA, hq, if_false, List.mem_cons] at h
        rcases h with h | h
        · exact Or.inr (by simp [h])
        · rcases ih h with h' | h'
          · exact Or.inl h'
          · exact Or.inr (List.mem_cons_of_mem q h')

theorem insertA_ne_nil {α : Type} (l : List (String × α)) (k : String) (v : α) :
    insertA l k v ≠ [] := by
  cases l with
  | nil => simp [insertA]
  | cons p rest =>
      by_cases hp : p.1 = k <;> simp [insertA, hp]

theorem eraseA_sublist {α : Type} (l : List (String × α)) (k : String) :
    (eraseA l k).Sublist l := by
  induction l with
  | nil => simp [eraseA]
  | cons p rest ih =>
      obtain ⟨a, v⟩ := p
      by_cases hp : a = k
      · simpa [eraseA, hp] using ih.cons (a, v)
      · simpa [eraseA, hp] using ih.cons₂ (a, v)

theorem mem_eraseA {α : Type} {l : List (String × α)} {k : String} {p : String × α}
    (h : p ∈ eraseA l k) : p ∈ l :=
  (eraseA_sublist l k).subset h

theorem keys_insertA_of_lookup_some {α : Type} (l : List (String × α)) (k : String) (v v' : α)
    (h : lookupA l k = some v') : (insertA l k v).map Prod.fst = l.map Prod.fst := by
  induction l with
  | nil => simp [lookupA] at h
  | cons p rest ih =>
      by_cases hp : p.1 = k
      · simp [insertA, hp]
      · simp only [lookupA, hp, if_false] at h
        simp [insertA, hp, ih h]

theorem keys_insertA_of_lookup_none {α : Type} (l : List (String × α)) (k : String) (v : α)
    (h : lookupA l k = none) : (insertA l k v).map Prod.fst = l.map Prod.fst ++ [k] := by
  induction l with
  | nil => simp [insertA]
  | cons p rest ih =>
      by_cases hp : p.1 = k
      · simp [lookupA, hp] at h
      · simp only [lookupA, hp, if_false] at h
        simp [insertA, hp, ih h]

theorem nodup_keys_insertA {α : Type} (l : List (String × α)) (k : String) (v : α)
    (h : (l.map Prod.fst).Nodup) : ((insertA l k v).map Prod.fst).Nodup := by
  cases hl : lookupA l k with
  | none =>
      rw [keys_insertA_of_lookup_none l k v hl]
      rw [lookupA_eq_none_iff] at hl
      refine List.Nodup.append h (List.nodup_singleton k) ?_
      intro a ha hb
      simp only [List.mem_singleton] at hb
      rcases List.mem_map.mp ha with ⟨p, hp, hpa⟩
      exact hl p hp (hpa.trans hb)
  | some w => rw [keys_insertA_of_lookup_some l k v w hl]; exact h

theorem nodup_keys_eraseA {α : Type} (l : List (String × α)) (k : String)
    (h : (l.map Prod.fst).Nodup) : ((eraseA l k).map Prod.fst).Nodup :=
  (((eraseA_sublist l k).map Prod.fst).nodup h)

/-! Lemmas about `findSubIdx` and `remove`. -/

theorem findSubIdx_eq_none_iff (cid : String) (subs : List DiscordChannel) :
    findSubIdx cid subs = none ↔ ∀ d ∈ subs, d.channelID ≠ cid := by
  induction subs with
  | nil => simp [findSubIdx]
  | cons d rest ih =>
      by_cases hd : d.channelID = cid
      · simp [findSubIdx, hd]
      · simp [findSubIdx, hd, ih]

theorem findSubIdx_some (cid : String) (subs : List DiscordChannel) (i : Nat)
    (h : findSubIdx cid subs = some i) :
    i < subs.length ∧ (subs.getD i default).channelID = cid := by
  induction subs generalizing i with
  | nil => simp [findSubIdx] at h
  | cons d rest ih =>
      by_cases hd : d.channelID = cid
      · simp only [findSubIdx, hd, if_true, Option.some.injEq] at h
        subst h
        simpa using hd
      · simp only [findSubIdx, hd, if_false, Option.map_eq_some'] at h
        rcases h with ⟨j, hj, hji⟩
        rcases ih j hj with ⟨h1, h2⟩
        subst hji
        exact ⟨by simpa using h1, by simpa using h2⟩

theorem remove_perm (s : List DiscordChannel) (i : Nat) (h : i < s.length) :
    s.Perm (s.getD i default :: remove s i) := by
  induction s generalizing i with
  | nil => simp at h
  | cons a s' ih =>
      cases i with
      | zero =>
          cases s' with
          | nil => simp [remove]
          | cons b s'' =>
              have hne : (b :: s'') ≠ ([] : List DiscordChannel) := by simp
              have hrem : remove (a :: b :: s'') 0
                  = (b :: s'').getLast hne :: (b :: s'').dropLast := by
                simp only [remove, List.length_cons, Nat.add_sub_cancel]
                have hget : (a :: b :: s'').getD (s''.length + 1) default
                    = (b :: s'').getLast hne := by
                  rw [List.getLast_eq_getElem]
                  simp [List.getD_eq_getElem?_getD, List.getElem?_eq_getElem]
                rw [hget, List.set_cons_zero, List.dropLast_cons₂]
              have htail : (b :: s'').Perm ((b :: s'').getLast hne :: (b :: s'').dropLast) := by
                have hsplit := List.dropLast_append_getLast hne
                have hps := List.perm_append_singleton ((b :: s'').getLast hne) (b :: s'').dropLast
                rw [hsplit] at hps
                exact hps
              simpa [hrem] using List.Perm.cons a htail
      | succ j =>
          cases s' with
          | nil => simp at h
          | cons b s'' =>
              have hj : j < (b :: s'').length := by simpa using h
              have hrec := ih j hj
              have hrem : remove (a :: b :: s'') (j + 1) = a :: remove (b :: s'') j := by
                simp only [remove, List.length_cons, Nat.add_sub_cancel]
                rw [List.getD_cons_succ, List.set_cons_succ, List.dropLast_cons_of_ne_nil]
                intro hfalse
                have := congrArg List.length hfalse
                simp at this
              have hgd : (a :: b :: s'').getD (j + 1) default = (b :: s'').getD j default :=
                List.getD_cons_succ
              rw [hrem, hgd]
              exact (List.Perm.cons a hrec).trans
                (List.Perm.swap ((b :: s'').getD j default) a (remove (b :: s'') j))

theorem remove_length (s : List DiscordChannel) (i : Nat) (h : i < s.length) :
    (remove s i).length + 1 = s.length := by
  have := (remove_perm s i h).length_eq
  simpa [Nat.add_comm] using this.symm

theorem remove_countP (s : List DiscordChannel) (i : Nat) (h : i < s.length)
    (p : DiscordChannel → Bool) :
    s.countP p = (remove s i).countP p + (if p (s.getD i default) then 1 else 0) := by
  have := (remove_perm s i h).countP_eq p
  rw [this, List.countP_cons]

theorem lookupA_map_val {α β : Type} (f : String → α → β) (l : List (String × α)) (k : String) :
    lookupA (l.map (fun p => (p.1, f p.1 p.2))) k = (lookupA l k).map (f k) := by
  induction l with
  | nil => simp [lookupA]
  | cons p rest ih =>
      by_cases hp : p.1 = k
      · subst hp; simp [lookupA]
      · simp [lookupA, hp, ih]

theorem lookupA_filter_none {α : Type} (l : List (String × α)) (f : String × α → Bool)
    (k : String) (hf : ∀ v, f (k, v) = false) : lookupA (l.filter f) k = none := by
  induction l with
  | nil => simp [lookupA]
  | cons p rest ih =>
      obtain ⟨a, v⟩ := p
      by_cases ha : a = k
      · subst ha
        simp [List.filter_cons, hf v, ih]
      · by_cases hfa : f (a, v) <;> simp [List.filter_cons, hfa, lookupA, ha, ih]

theorem lookupA_pruned (gs : List (String × Bool)) (l : Registry) (c : String) :
    lookupA (l.map (fun p => (p.1, pruneInfo gs p.2))) c
      = (lookupA l c).map (pruneInfo gs) := by
  induction l with
  | nil => simp [lookupA]
  | cons p rest ih =>
      by_cases hp : p.1 = c
      · simp [lookupA, hp]
      · simp [lookupA, hp, ih]

theorem insertA_insertA {α : Type} (l : List (String × α)) (k : String) (v v' : α) :
    insertA (insertA l k v) k v' = insertA l k v' := by
  induction l with
  | nil => simp [insertA]
  | cons p rest ih =>
      obtain ⟨a, w⟩ := p
      by_cases hp : a = k
      · simp [insertA, hp]
      · simp [insertA, hp, ih]

theorem lookupA_some_mem {α : Type} {l : List (String × α)} {k : String} {v : α}
    (h : lookupA l k = some v) : (k, v) ∈ l := by
  induction l with
  | nil => simp [lookupA] at h
  | cons p rest ih =>
      obtain ⟨a, w⟩ := p
      by_cases hp : a = k
      · subst hp
        simp only [lookupA, if_pos, Option.some.injEq] at h
        simp [h]
      · simp only [lookupA, hp, if_false] at h
        exact List.mem_cons_of_mem _ (ih h)

/-! Registration-step characterizations. -/

theorem getChannelIdx_of_none {t : Session} {c g cid : String}
    (hl : lookupA t.twitchData c = none) : getChannelIdx t c g cid = -1 := by
  simp [getChannelIdx, hl]

theorem getChannelIdx_of_findSubIdx_none {t : Session} {c g cid : String}
    {info : TwitchChannelInfo}
    (hl : lookupA t.twitchData c = some info)
    (hf : findSubIdx cid ((lookupA info.discordChannels g).getD []) = none) :
    getChannelIdx t c g cid = -1 := by
  simp [getChannelIdx, hl, hf]

theorem getChannelIdx_of_findSubIdx_some {t : Session} {c g cid : String}
    {info : TwitchChannelInfo} {i : Nat}
    (hl : lookupA t.twitchData c = some info)
    (hf : findSubIdx cid ((lookupA info.discordChannels g).getD []) = some i) :
    getChannelIdx t c g cid = (i : Int) := by
  simp [getChannelIdx, hl, hf]

theorem registerKnown_appends {t : Session} {c g cid : String} {info : TwitchChannelInfo}
    (hl : lookupA t.twitchData c = some info)
    (hf : findSubIdx cid ((lookupA info.discordChannels g).getD []) = none) :
    registerKnown t c g cid =
      (.ok,
       { t with twitchData := (insertA t.twitchData c (withNewSub info g cid)) },
       some (insertA t.twitchData c (withNewSub info g cid))) := by
  have hidx := getChannelIdx_of_findSubIdx_none hl hf
  simp [registerKnown, hidx, hl]

theorem registerKnown_already {t : Session} {c g cid : String} {info : TwitchChannelInfo} {i : Nat}
    (hl : lookupA t.twitchData c = some info)
    (hf : findSubIdx cid ((lookupA info.discordChannels g).getD []) = some i) :
    registerKnown t c g cid = (.errTwitchUserRegistered, t, none) := by
  have hidx := getChannelIdx_of_findSubIdx_some hl hf
  rw [registerKnown, hidx]
  simp

theorem findSubIdx_append_match (cid : String) (subs : List DiscordChannel)
    (d : DiscordChannel) (hf : findSubIdx cid subs = none) (hd : d.channelID = cid) :
    findSubIdx cid (subs ++ [d]) = some subs.length := by
  induction subs with
  | nil => simp [findSubIdx, hd]
  | cons e rest ih =>
      by_cases he : e.channelID = cid
      · simp [findSubIdx, he] at hf
      · simp only [findSubIdx, he, if_false, Option.map_eq_none'] at hf
        simp [findSubIdx, he, ih hf]

/-! Notification-loop lemmas. -/

theorem guild_mem_notifyLiveSubs (g disp : String) (subs : List DiscordChannel) (n : Notif)
    (h : n ∈ (notifyLiveSubs g disp subs).2) : n.guild = g := by
  induction subs with
  | nil => simp [notifyLiveSubs] at h
  | cons d rest ih =>
      simp only [notifyLiveSubs] at h
      by_cases hd : d.liveNotificationSent
      · rw [if_pos hd] at h
        exact ih h
      · rw [if_neg hd] at h
        simp only [List.mem_cons] at h
        rcases h with h | h
        · simp [h, Notif.guild]
        · exact ih h

theorem guild_mem_notifyOfflineSubs (g disp : String) (subs : List DiscordChannel) (n : Notif)
    (h : n ∈ (notifyOfflineSubs g disp subs).2) : n.guild = g := by
  induction subs with
  | nil => simp [notifyOfflineSubs] at h
  | cons d rest ih =>
      simp only [notifyOfflineSubs] at h
      by_cases hd : d.liveNotificationSent
      · rw [if_pos hd] at h
        simp only [List.mem_cons] at h
        rcases h with h | h
        · simp [h, Notif.guild]
        · exact ih h
      · rw [if_neg hd] at h
        exact ih h

theorem active_mem_notifyLiveGuilds (gs : List (String × Bool)) (disp : String)
    (dcs : List (String × List DiscordChannel)) (n : Notif)
    (h : n ∈ (notifyLiveGuilds gs disp dcs).2) : lookupA gs n.guild = some true := by
  induction dcs with
  | nil => simp [notifyLiveGuilds] at h
  | cons p rest ih =>
      obtain ⟨g, subs⟩ := p
      simp only [notifyLiveGuilds] at h
      by_cases hg : lookupA gs g = some true
      · rw [if_pos hg] at h
        simp only [List.mem_append] at h
        rcases h with h | h
        · rw [guild_mem_notifyLiveSubs g disp subs n h]; exact hg
        · exact ih h
      · rw [if_neg hg] at h
        exact ih h

theorem active_mem_notifyOfflineGuilds (gs : List (String × Bool)) (disp : String)
    (dcs : List (String × List DiscordChannel)) (n : Notif)
    (h : n ∈ (notifyOfflineGuilds gs disp dcs).2) : lookupA gs n.guild = some true := by
  induction dcs with
  | nil => simp [notifyOfflineGuilds] at h
  | cons p rest ih =>
      obtain ⟨g, subs⟩ := p
      simp only [notifyOfflineGuilds] at h
      by_cases hg : lookupA gs g = some true
      · rw [if_pos hg] at h
        simp only [List.mem_append] at h
        rcases h with h | h
        · rw [guild_mem_notifyOfflineSubs g disp subs n h]; exact hg
        · exact ih h
      · rw [if_neg hg] at h
        exact ih h

theorem active_mem_debounceStep (gs : List (String × Bool)) (threshold now : Nat)
    (info : TwitchChannelInfo) (n : Notif)
    (h : n ∈ (debounceStep gs threshold now info).2) : lookupA gs n.guild = some true := by
  unfold debounceStep at h
  split at h
  · exact active_mem_notifyLiveGuilds gs info.displayName info.discordChannels n h
  · split at h
    · exact active_mem_notifyOfflineGuilds gs info.displayName info.discordChannels n h
    · simp at h

/-! Claim theorems. -/

/-- C8: when the credential validation-and-refresh step fails during
`RegisterChannel` of a not-yet-registered Twitch channel, the call
returns the invalid-token error, the registry is unchanged (no partial
`twitchChannelInfo` entry, no subscription), and nothing is written to
disk. -/
theorem C8_invalid_token_no_mutation (t : Session) (getUsersErr : Bool)
    (respUsers : List HelixUser) (twitchID discordGuildID discordChannelID : String)
    (h : lookupA t.twitchData twitchID = none) :
    registerChannel t false getUsersErr respUsers twitchID discordGuildID discordChannelID
      = (.errInvalidToken, t, none) := by
  simp [registerChannel, h]

/-- C8 witness: the theorem applied to the empty session. -/
theorem C8_invalid_token_no_mutation_witness :
    registerChannel emptySession false false [aliceUser] "alice" "g1" "c1"
      = (.errInvalidToken, emptySession, none) :=
  C8_invalid_token_no_mutation emptySession false [aliceUser] "alice" "g1" "c1" rfl

/-- C9: `UnregisterChannel` on a key with no matching subscription
(including a Twitch channel absent from the registry) returns `false`,
leaves the session exactly unchanged, and performs no persistence
write. -/
theorem C9_unregister_missing_noop (t : Session)
    (twitchID discordGuildID discordChannelID : String)
    (h : countSubs t.twitchData twitchID discordGuildID discordChannelID = 0) :
    unregisterChannel t twitchID discordGuildID discordChannelID = (false, t, none) := by
  unfold countSubs at h
  cases hl : lookupA t.twitchData twitchID with
  | none => simp [unregisterChannel, hl]
  | some info =>
      rw [hl] at h
      have hnone : findSubIdx discordChannelID
          ((lookupA info.discordChannels discordGuildID).getD []) = none := by
        rw [findSubIdx_eq_none_iff]
        intro d hd
        have := List.countP_eq_zero.mp h d hd
        simpa using this
      simp [unregisterChannel, hl, hnone]

/-- C9 witness: unregistering from a registry that holds a different
subscription key. -/
theorem C9_unregister_missing_noop_witness :
    unregisterChannel g2Session "alice" "g1" "c1" = (false, g2Session, none) :=
  C9_unregister_missing_noop g2Session "alice" "g1" "c1" (by decide)

/-- C10: during first-time registration with a valid credential, a
`GetUsers` response holding zero users yields the channel-does-not-exist
error and no registry entry — also when the lookup call itself returned
a (merely logged) transient error, which is therefore reported to the
caller as a nonexistent channel. -/
theorem C10_empty_users_reported_nonexistent (t : Session) (getUsersErr : Bool)
    (twitchID discordGuildID discordChannelID : String)
    (h : lookupA t.twitchData twitchID = none) :
    registerChannel t true getUsersErr [] twitchID discordGuildID discordChannelID
      = (.errTwitchUserDoesNotExist, t, none) := by
  simp [registerChannel, h]

/-- C10 witness: a transient upstream error (`getUsersErr = true`) with an
empty user list surfaces as the nonexistent-channel error. -/
theorem C10_empty_users_reported_nonexistent_witness :
    registerChannel emptySession true true [] "alice" "g1" "c1"
      = (.errTwitchUserDoesNotExist, emptySession, none) :=
  C10_empty_users_reported_nonexistent emptySession true "alice" "g1" "c1" rfl

/-- C2 counterexample: the claim says `Close` removes subscriptions of
communities whose status is absent from the guild-status map, but with an
empty guild-status map (guild `g2` absent) `Close` prunes nothing: the
`g2` subscription survives in memory and in the persisted snapshot. -/
theorem C2_counterexample :
    lookupA ([] : List (String × Bool)) "g2" = none
    ∧ (close g2Session [] []).1.twitchData = g2Session.twitchData
    ∧ countSubs (close g2Session [] []).1.twitchData "alice" "g2" "c1" = 1
    ∧ readGobFromDisk (close g2Session [] []).2 "sess"
        = some g2Session.twitchData := by decide

/-- C2 (amended): `Close` marks connectivity false, removes every
subscription belonging to a community whose guild-status entry is present
with value `false`, and persists the pruned registry; a fresh load of the
snapshot returns exactly the pruned registry, which contains no
subscription of such a community. -/
theorem C2_close_prunes_false_guilds (t : Session) (gs : List (String × Bool)) (disk : Disk) :
    (close t gs disk).1.isConnected = false
    ∧ readGobFromDisk (close t gs disk).2 t.name = some (close t gs disk).1.twitchData
    ∧ (∀ g, lookupA gs g = some false →
        ∀ c info, lookupA (close t gs disk).1.twitchData c = some info →
          lookupA info.discordChannels g = none) := by
  refine ⟨rfl, ?_, ?_⟩
  · exact lookupA_insertA_self disk t.name _
  · intro g hg c info hinfo
    simp only [close] at hinfo
    rw [lookupA_pruned gs t.twitchData c] at hinfo
    cases hl : lookupA t.twitchData c with
    | none => rw [hl] at hinfo; simp at hinfo
    | some info0 =>
        rw [hl] at hinfo
        simp only [Option.map_some', Option.some.injEq] at hinfo
        subst hinfo
        exact lookupA_filter_none _ _ g (fun v => by simp [hg])

/-- C2 amended witness: closing `g2Session` with guild `g2` present and
`false` removes and never persists the `g2` subscription. -/
theorem C2_close_prunes_false_guilds_witness :
    (close g2Session [("g2", false)] []).1.isConnected = false
    ∧ readGobFromDisk (close g2Session [("g2", false)] []).2 "sess"
        = some (close g2Session [("g2", false)] []).1.twitchData
    ∧ lookupA (close g2Session [("g2", false)] []).1.twitchData "alice"
        = some { g2Info with discordChannels := [] } := by
  have h := C2_close_prunes_false_guilds g2Session [("g2", false)] []
  refine ⟨h.1, h.2.1, by decide⟩

/-- C7: in a full monitor cycle, every dispatched notification (live or
offline) goes to a subscription of a community whose guild-status entry
is present and `true`; communities absent from the map or marked `false`
never receive a message, regardless of debounce state. -/
theorem C7_notifications_gated_by_guild_status (gs : List (String × Bool))
    (threshold now : Nat) (streams : List HelixStream) (data : Registry) (n : Notif)
    (h : n ∈ (monitorCycle gs threshold now streams data).2) :
    lookupA gs n.guild = some true := by
  unfold monitorCycle at h
  generalize updateTimes streams now data = data1 at h
  induction data1 with
  | nil => simp at h
  | cons p rest ih =>
      simp only [List.foldr_cons, List.mem_append] at h
      rcases h with h | h
      · exact active_mem_debounceStep gs threshold now p.2 n h
      · exact ih h

/-- C7 witness: a live-pending channel with an absent guild dispatches
nothing (vacuously, there is no notification to name; the theorem is
applied to a cycle that does fire for an active guild). -/
theorem C7_notifications_gated_by_guild_status_witness :
    lookupA [("g2", true)] (Notif.offline "g2" "c1" "Alice").guild = some true :=
  C7_notifications_gated_by_guild_status [("g2", true)] 1 100 [] g2Session.twitchData
    (Notif.offline "g2" "c1" "Alice") (by decide)

/-! Preservation of the registry invariant by the registration operations. -/

theorem strong_registry_invariant_implies (data : Registry)
    (h : strongRegistryInvariant data) : registryInvariant data := by
  intro p hp
  obtain ⟨h1, h2⟩ := h p hp
  cases hdc : p.2.discordChannels with
  | nil => exact absurd hdc h1
  | cons q rest => exact ⟨q, by simp [hdc], h2 q (by simp [hdc])⟩

theorem registerKnown_preserves_strong (u : Session) (c g cid : String)
    (hstrong : strongRegistryInvariant u.twitchData) :
    strongRegistryInvariant (registerKnown u c g cid).2.1.twitchData := by
  cases hl : lookupA u.twitchData c with
  | none =>
      have hidx := @getChannelIdx_of_none u c g cid hl
      simpa [registerKnown, hidx, hl] using hstrong
  | some info =>
      cases hf : findSubIdx cid ((lookupA info.discordChannels g).getD []) with
      | some i => rw [registerKnown_already hl hf]; exact hstrong
      | none =>
          rw [registerKnown_appends hl hf]
          intro p hp
          simp only at hp
          rcases mem_insertA hp with hpe | hpm
          · subst hpe
            refine ⟨by simp only [withNewSub]; exact insertA_ne_nil _ _ _, ?_⟩
            intro q hq
            simp only [withNewSub] at hq
            rcases mem_insertA hq with hqe | hqm
            · subst hqe; simp
            · exact (hstrong (c, info) (lookupA_some_mem hl)).2 q hqm
          · exact hstrong p hpm

theorem register_preserves_strong (t : Session) (tok gerr : Bool) (users : List HelixUser)
    (c g cid : String) (hstrong : strongRegistryInvariant t.twitchData) :
    strongRegistryInvariant (registerChannel t tok gerr users c g cid).2.1.twitchData := by
  cases hl : lookupA t.twitchData c with
  | some info =>
      simp only [registerChannel, hl]
      exact registerKnown_preserves_strong t c g cid hstrong
  | none =>
      cases tok with
      | false => simpa [registerChannel, hl] using hstrong
      | true =>
          cases users with
          | nil => simpa [registerChannel, hl] using hstrong
          | cons u us =>
              simp only [registerChannel, hl, if_pos]
              have hl1 : lookupA ({ t with twitchData := insertA t.twitchData c (newChannelInfo u) } : Session).twitchData c
                  = some (newChannelInfo u) := lookupA_insertA_self _ _ _
              have hf1 : findSubIdx cid
                  ((lookupA (newChannelInfo u).discordChannels g).getD []) = none := rfl
              rw [registerKnown_appends hl1 hf1]
              simp only [insertA_insertA]
              intro p hp
              rcases mem_insertA hp with hpe | hpm
              · subst hpe
                refine ⟨by simp only [withNewSub]; exact insertA_ne_nil _ _ _, ?_⟩
                intro q hq
                simp only [withNewSub] at hq
                rcases mem_insertA hq with hqe | hqm
                · subst hqe; simp
                · simp [newChannelInfo] at hqm
              · exact hstrong p hpm

theorem unregister_preserves_strong (t : Session) (c g cid : String)
    (hstrong : strongRegistryInvariant t.twitchData) :
    strongRegistryInvariant (unregisterChannel t c g cid).2.1.twitchData := by
  cases hl : lookupA t.twitchData c with
  | none => simpa [unregisterChannel, hl] using hstrong
  | some info =>
      cases hf : findSubIdx cid ((lookupA info.discordChannels g).getD []) with
      | none => simpa [unregisterChannel, hl, hf] using hstrong
      | some i =>
          simp only [unregisterChannel, hl, hf]
          cases hs : (remove ((lookupA info.discordChannels g).getD []) i).isEmpty with
          | true =>
              simp only [hs, if_true]
              cases hd : (eraseA info.discordChannels g).isEmpty with
              | true =>
                  simp only [hd, if_true]
                  intro p hp
                  exact hstrong p (mem_eraseA hp)
              | false =>
                  simp only [hd, Bool.false_eq_true, if_false]
                  intro p hp
                  rcases mem_insertA hp with hpe | hpm
                  · subst hpe
                    refine ⟨List.isEmpty_eq_false.mp hd, ?_⟩
                    intro q hq
                    exact (hstrong (c, info) (lookupA_some_mem hl)).2 q (mem_eraseA hq)
                  · exact hstrong p hpm
          | false =>
              simp only [hs, Bool.false_eq_true, if_false]
              have hins : (insertA info.discordChannels g
                  (remove ((lookupA info.discordChannels g).getD []) i)).isEmpty = false :=
                List.isEmpty_eq_false.mpr (insertA_ne_nil _ _ _)
              simp only [hins, Bool.false_eq_true, if_false]
              intro p hp
              rcases mem_insertA hp with hpe | hpm
              · subst hpe
                refine ⟨insertA_ne_nil _ _ _, ?_⟩
                intro q hq
                rcases mem_insertA hq with hqe | hqm
                · subst hqe
                  exact List.isEmpty_eq_false.mp hs
                · exact (hstrong (c, info) (lookupA_some_mem hl)).2 q hqm
              · exact hstrong p hpm

/-- C1 counterexample: from an empty session, register `alice` for guild
`g1`, mark `g1` inactive, and `Close`.  The pruning empties `alice`'s
subscription map but leaves the `alice` entry in the registry, violating
the claimed invariant that an entry exists only with a non-empty
subscription mapping (the claim says `Close`'s pruning removes the
now-empty entry; the code does not). -/
theorem C1_counterexample :
    ¬ registryInvariant (close aliceState g1InactiveStatus []).1.twitchData := by decide

/-- C1 (amended): `RegisterChannel` and `UnregisterChannel` preserve the
invariant that every registry entry has a non-empty community map all of
whose subscription lists are non-empty (`UnregisterChannel` deletes
now-empty lists, maps and entries), and this invariant implies the
spec's entry-iff-non-empty-subscription invariant; `Close`'s pruning,
however, does not remove an entry whose subscription map becomes empty
(see the counterexample). -/
theorem C1_invariant_under_register_unregister :
    (∀ (t : Session) (tok gerr : Bool) (users : List HelixUser) (c g cid : String),
        strongRegistryInvariant t.twitchData →
        strongRegistryInvariant (registerChannel t tok gerr users c g cid).2.1.twitchData)
    ∧ (∀ (t : Session) (c g cid : String),
        strongRegistryInvariant t.twitchData →
        strongRegistryInvariant (unregisterChannel t c g cid).2.1.twitchData)
    ∧ (∀ data : Registry, strongRegistryInvariant data → registryInvariant data) :=
  ⟨register_preserves_strong, unregister_preserves_strong, strong_registry_invariant_implies⟩

/-- C1 witness: the preservation theorem applied to a concrete
registration on the empty session. -/
theorem C1_invariant_under_register_unregister_witness :
    strongRegistryInvariant
      (registerChannel emptySession true false [aliceUser] "alice" "g1" "c1").2.1.twitchData :=
  C1_invariant_under_register_unregister.1 emptySession true false [aliceUser]
    "alice" "g1" "c1" (by decide)

/-- C4: if a `RegisterChannel` call succeeds, the registry then holds
exactly one subscription for its (twitch channel, guild, Discord channel)
key, and an identical second call (under any oracle) returns the
already-registered outcome with the session unchanged and no disk
write. -/
theorem C4_second_register_already_registered (t : Session) (tok gerr tok2 gerr2 : Bool)
    (users users2 : List HelixUser) (c g cid : String)
    (h : (registerChannel t tok gerr users c g cid).1 = .ok) :
    countSubs (registerChannel t tok gerr users c g cid).2.1.twitchData c g cid = 1
    ∧ registerChannel (registerChannel t tok gerr users c g cid).2.1 tok2 gerr2 users2 c g cid
        = (.errTwitchUserRegistered, (registerChannel t tok gerr users c g cid).2.1, none) := by
  cases hl : lookupA t.twitchData c with
  | none =>
      cases tok with
      | false => simp [registerChannel, hl] at h
      | true =>
          cases users with
          | nil => simp [registerChannel, hl] at h
          | cons u us =>
              have hl1 : lookupA ({ t with twitchData := insertA t.twitchData c (newChannelInfo u) } : Session).twitchData c
                  = some (newChannelInfo u) := lookupA_insertA_self _ _ _
              have hf1 : findSubIdx cid
                  ((lookupA (newChannelInfo u).discordChannels g).getD []) = none := rfl
              have heq := registerKnown_appends hl1 hf1
              simp only [registerChannel, hl, if_pos, heq, insertA_insertA]
              have hl2 : lookupA ({ t with twitchData := insertA t.twitchData c (withNewSub (newChannelInfo u) g cid) } : Session).twitchData c
                  = some (withNewSub (newChannelInfo u) g cid) := lookupA_insertA_self _ _ _
              constructor
              · simp [countSubs, lookupA_insertA_self, withNewSub, newChannelInfo, insertA, lookupA]
              · have hf2 : findSubIdx cid
                    ((lookupA (withNewSub (newChannelInfo u) g cid).discordChannels g).getD [])
                      = some 0 := by
                  simp [withNewSub, newChannelInfo, insertA, lookupA, findSubIdx]
                simp only [registerChannel, hl2]
                exact registerKnown_already hl2 hf2
  | some info =>
      have hreg : registerChannel t tok gerr users c g cid = registerKnown t c g cid := by
        simp [registerChannel, hl]
      rw [hreg] at h ⊢
      cases hf : findSubIdx cid ((lookupA info.discordChannels g).getD []) with
      | some i => rw [registerKnown_already hl hf] at h; simp at h
      | none =>
          have heq := registerKnown_appends hl hf
          rw [heq]
          have hcount0 : ((lookupA info.discordChannels g).getD []).countP
              (fun d => decide (d.channelID = cid)) = 0 := by
            rw [List.countP_eq_zero]
            intro d hd
            simpa using (findSubIdx_eq_none_iff cid _).mp hf d hd
          have hl2 : lookupA ({ t with twitchData := insertA t.twitchData c (withNewSub info g cid) } : Session).twitchData c
              = some (withNewSub info g cid) := lookupA_insertA_self _ _ _
          constructor
          · simp only [countSubs, hl2, withNewSub, lookupA_insertA_self, Option.getD_some]
            simp [List.countP_append, hcount0]
          · have hf2 : findSubIdx cid
                ((lookupA (withNewSub info g cid).discordChannels g).getD [])
                  = some ((lookupA info.discordChannels g).getD []).length := by
              simp only [withNewSub, lookupA_insertA_self, Option.getD_some]
              exact findSubIdx_append_match cid _ _ hf rfl
            simp only [registerChannel, hl2]
            exact registerKnown_already hl2 hf2

/-! Counting lemmas for the live-notification loops. -/

theorem isLiveFor_guild (n : Notif) (g cid : String) (h : n.isLiveFor g cid = true) :
    n.guild = g := by
  cases n with
  | live g' cid' x =>
      simp only [Notif.isLiveFor, Bool.and_eq_true, decide_eq_true_eq] at h
      simp [Notif.guild, h.1]
  | offline g' cid' x => simp [Notif.isLiveFor] at h

theorem isOfflineFor_guild (n : Notif) (g cid : String) (h : n.isOfflineFor g cid = true) :
    n.guild = g := by
  cases n with
  | offline g' cid' x =>
      simp only [Notif.isOfflineFor, Bool.and_eq_true, decide_eq_true_eq] at h
      simp [Notif.guild, h.1]
  | live g' cid' x => simp [Notif.isOfflineFor] at h

theorem notifyLiveSubs_fst (g disp : String) (subs : List DiscordChannel) :
    (notifyLiveSubs g disp subs).1 = subs.map markSent := by
  induction subs with
  | nil => rfl
  | cons d rest ih =>
      obtain ⟨dc, ds⟩ := d
      cases ds with
      | true => simp [notifyLiveSubs, markSent, ih]
      | false => simp [notifyLiveSubs, markSent, ih]

theorem notifyOfflineSubs_fst (g disp : String) (subs : List DiscordChannel) :
    (notifyOfflineSubs g disp subs).1 = subs.map markUnsent := by
  induction subs with
  | nil => rfl
  | cons d rest ih =>
      obtain ⟨dc, ds⟩ := d
      cases ds with
      | true => simp [notifyOfflineSubs, markUnsent, ih]
      | false => simp [notifyOfflineSubs, markUnsent, ih]

theorem notifyLiveSubs_count_self (g disp cid : String) (subs : List DiscordChannel) :
    ((notifyLiveSubs g disp subs).2).countP (fun n => n.isLiveFor g cid)
      = subs.countP (fun d => decide (d.channelID = cid) && !d.liveNotificationSent) := by
  induction subs with
  | nil => rfl
  | cons d rest ih =>
      obtain ⟨dc, ds⟩ := d
      cases ds with
      | true => simp [notifyLiveSubs, List.countP_cons, ih]
      | false =>
          simp only [notifyLiveSubs, Bool.false_eq_true, if_false, List.countP_cons, ih]
          simp [Notif.isLiveFor]

theorem notifyOfflineSubs_count_self (g disp cid : String) (subs : List DiscordChannel) :
    ((notifyOfflineSubs g disp subs).2).countP (fun n => n.isOfflineFor g cid)
      = subs.countP (fun d => decide (d.channelID = cid) && d.liveNotificationSent) := by
  induction subs with
  | nil => rfl
  | cons d rest ih =>
      obtain ⟨dc, ds⟩ := d
      cases ds with
      | true =>
          simp only [notifyOfflineSubs, if_true, List.countP_cons, ih]
          simp [Notif.isOfflineFor]
      | false => simp [notifyOfflineSubs, List.countP_cons, ih]

theorem notifyLiveSubs_count_other (g' g disp cid : String) (subs : List DiscordChannel)
    (hne : g' ≠ g) :
    ((notifyLiveSubs g' disp subs).2).countP (fun n => n.isLiveFor g cid) = 0 := by
  rw [List.countP_eq_zero]
  intro n hn
  intro hfor
  exact hne ((guild_mem_notifyLiveSubs g' disp subs n hn).symm.trans (isLiveFor_guild n g cid hfor))

theorem notifyOfflineSubs_count_other (g' g disp cid : String) (subs : List DiscordChannel)
    (hne : g' ≠ g) :
    ((notifyOfflineSubs g' disp subs).2).countP (fun n => n.isOfflineFor g cid) = 0 := by
  rw [List.countP_eq_zero]
  intro n hn
  intro hfor
  exact hne ((guild_mem_notifyOfflineSubs g' disp subs n hn).symm.trans
    (isOfflineFor_guild n g cid hfor))

theorem guilds_of_notifyLiveGuilds (gs : List (String × Bool)) (disp : String)
    (dcs : List (String × List DiscordChannel)) (n : Notif)
    (h : n ∈ (notifyLiveGuilds gs disp dcs).2) : n.guild ∈ dcs.map Prod.fst := by
  induction dcs with
  | nil => simp [notifyLiveGuilds] at h
  | cons p rest ih =>
      obtain ⟨g, subs⟩ := p
      simp only [notifyLiveGuilds] at h
      by_cases hg : lookupA gs g = some true
      · rw [if_pos hg] at h
        simp only [List.mem_append] at h
        rcases h with h | h
        · simp [guild_mem_notifyLiveSubs g disp subs n h]
        · simpa using Or.inr (ih h)
      · rw [if_neg hg] at h
        simpa using Or.inr (ih h)

theorem guilds_of_notifyOfflineGuilds (gs : List (String × Bool)) (disp : String)
    (dcs : List (String × List DiscordChannel)) (n : Notif)
    (h : n ∈ (notifyOfflineGuilds gs disp dcs).2) : n.guild ∈ dcs.map Prod.fst := by
  induction dcs with
  | nil => simp [notifyOfflineGuilds] at h
  | cons p rest ih =>
      obtain ⟨g, subs⟩ := p
      simp only [notifyOfflineGuilds] at h
      by_cases hg : lookupA gs g = some true
      · rw [if_pos hg] at h
        simp only [List.mem_append] at h
        rcases h with h | h
        · simp [guild_mem_notifyOfflineSubs g disp subs n h]
        · simpa using Or.inr (ih h)
      · rw [if_neg hg] at h
        simpa using Or.inr (ih h)

theorem notifyLiveGuilds_keys (gs : List (String × Bool)) (disp : String)
    (dcs : List (String × List DiscordChannel)) :
    (notifyLiveGuilds gs disp dcs).1.map Prod.fst = dcs.map Prod.fst := by
  induction dcs with
  | nil => rfl
  | cons p rest ih =>
      obtain ⟨g, subs⟩ := p
      by_cases hg : lookupA gs g = some true
      · simp [notifyLiveGuilds, hg, ih]
      · simp [notifyLiveGuilds, hg, ih]

theorem notifyOfflineGuilds_keys (gs : List (String × Bool)) (disp : String)
    (dcs : List (String × List DiscordChannel)) :
    (notifyOfflineGuilds gs disp dcs).1.map Prod.fst = dcs.map Prod.fst := by
  induction dcs with
  | nil => rfl
  | cons p rest ih =>
      obtain ⟨g, subs⟩ := p
      by_cases hg : lookupA gs g = some true
      · simp [notifyOfflineGuilds, hg, ih]
      · simp [notifyOfflineGuilds, hg, ih]

theorem notifyLiveGuilds_lookup_active (gs : List (String × Bool)) (disp g : String)
    (dcs : List (String × List DiscordChannel)) (subs : List DiscordChannel)
    (hg : lookupA gs g = some true) (hsubs : lookupA dcs g = some subs) :
    lookupA (notifyLiveGuilds gs disp dcs).1 g = some (subs.map markSent) := by
  induction dcs with
  | nil => simp [lookupA] at hsubs
  | cons p rest ih =>
      obtain ⟨g₁, subs₁⟩ := p
      by_cases h₁ : g₁ = g
      · subst h₁
        simp only [lookupA, if_pos, Option.some.injEq] at hsubs
        subst hsubs
        simp [notifyLiveGuilds, hg, lookupA, notifyLiveSubs_fst]
      · simp only [lookupA, h₁, if_false] at hsubs
        by_cases hg₁ : lookupA gs g₁ = some true
        · simp [notifyLiveGuilds, hg₁, lookupA, h₁, ih hsubs]
        · simp [notifyLiveGuilds, hg₁, lookupA, h₁, ih hsubs]

theorem notifyOfflineGuilds_lookup_active (gs : List (String × Bool)) (disp g : String)
    (dcs : List (String × List DiscordChannel)) (subs : List DiscordChannel)
    (hg : lookupA gs g = some true) (hsubs : lookupA dcs g = some subs) :
    lookupA (notifyOfflineGuilds gs disp dcs).1 g = some (subs.map markUnsent) := by
  induction dcs with
  | nil => simp [lookupA] at hsubs
  | cons p rest ih =>
      obtain ⟨g₁, subs₁⟩ := p
      by_cases h₁ : g₁ = g
      · subst h₁
        simp only [lookupA, if_pos, Option.some.injEq] at hsubs
        subst hsubs
        simp [notifyOfflineGuilds, hg, lookupA, notifyOfflineSubs_fst]
      · simp only [lookupA, h₁, if_false] at hsubs
        by_cases hg₁ : lookupA gs g₁ = some true
        · simp [notifyOfflineGuilds, hg₁, lookupA, h₁, ih hsubs]
        · simp [notifyOfflineGuilds, hg₁, lookupA, h₁, ih hsubs]

theorem notifyLiveGuilds_count (gs : List (String × Bool)) (disp g cid : String)
    (dcs : List (String × List DiscordChannel))
    (hnodup : (dcs.map Prod.fst).Nodup) :
    ((notifyLiveGuilds gs disp dcs).2).countP (fun n => n.isLiveFor g cid)
      = if lookupA gs g = some true then unsentCount dcs g cid else 0 := by
  induction dcs with
  | nil => simp [notifyLiveGuilds, unsentCount, lookupA]
  | cons p rest ih =>
      obtain ⟨g₁, subs₁⟩ := p
      simp only [List.map_cons, List.nodup_cons] at hnodup
      obtain ⟨hg₁notin, hnodup'⟩ := hnodup
      have hrest0 : ∀ n ∈ (notifyLiveGuilds gs disp rest).2, ¬(n.isLiveFor g₁ cid = true) := by
        intro n hn hfor
        exact hg₁notin ((isLiveFor_guild n g₁ cid hfor) ▸ guilds_of_notifyLiveGuilds gs disp rest n hn)
      by_cases h₁ : g₁ = g
      · subst h₁
        have hkey : lookupA ((g₁, subs₁) :: rest) g₁ = some subs₁ := by simp [lookupA]
        have hrestz : ((notifyLiveGuilds gs disp rest).2).countP (fun n => n.isLiveFor g₁ cid) = 0 :=
          List.countP_eq_zero.mpr hrest0
        by_cases hg : lookupA gs g₁ = some true
        · simp only [notifyLiveGuilds, hg, if_pos, List.countP_append, hrestz,
            notifyLiveSubs_count_self, Nat.add_zero]
          simp [unsentCount, hkey]
        · simp only [notifyLiveGuilds, hg, if_neg, if_false, hrestz]
      · have hlk : lookupA ((g₁, subs₁) :: rest) g = lookupA rest g := by simp [lookupA, h₁]
        have hsub0 : ((notifyLiveSubs g₁ disp subs₁).2).countP (fun n => n.isLiveFor g cid) = 0 :=
          notifyLiveSubs_count_other g₁ g disp cid subs₁ h₁
        have hucount : unsentCount ((g₁, subs₁) :: rest) g cid = unsentCount rest g cid := by
          simp [unsentCount, hlk]
        by_cases hg₁ : lookupA gs g₁ = some true
        · simp only [notifyLiveGuilds, hg₁, if_pos, List.countP_append, hsub0, Nat.zero_add,
            ih hnodup', hucount]
        · simp only [notifyLiveGuilds, hg₁, if_neg, if_false, ih hnodup', hucount]

theorem notifyOfflineGuilds_count (gs : List (String × Bool)) (disp g cid : String)
    (dcs : List (String × List DiscordChannel))
    (hnodup : (dcs.map Prod.fst).Nodup) :
    ((notifyOfflineGuilds gs disp dcs).2).countP (fun n => n.isOfflineFor g cid)
      = if lookupA gs g = some true then sentCount dcs g cid else 0 := by
  induction dcs with
  | nil => simp [notifyOfflineGuilds, sentCount, lookupA]
  | cons p rest ih =>
      obtain ⟨g₁, subs₁⟩ := p
      simp only [List.map_cons, List.nodup_cons] at hnodup
      obtain ⟨hg₁notin, hnodup'⟩ := hnodup
      have hrest0 : ∀ n ∈ (notifyOfflineGuilds gs disp rest).2, ¬(n.isOfflineFor g₁ cid = true) := by
        intro n hn hfor
        exact hg₁notin ((isOfflineFor_guild n g₁ cid hfor) ▸
          guilds_of_notifyOfflineGuilds gs disp rest n hn)
      by_cases h₁ : g₁ = g
      · subst h₁
        have hkey : lookupA ((g₁, subs₁) :: rest) g₁ = some subs₁ := by simp [lookupA]
        have hrestz : ((notifyOfflineGuilds gs disp rest).2).countP
            (fun n => n.isOfflineFor g₁ cid) = 0 :=
          List.countP_eq_zero.mpr hrest0
        by_cases hg : lookupA gs g₁ = some true
        · simp only [notifyOfflineGuilds, hg, if_pos, List.countP_append, hrestz,
            notifyOfflineSubs_count_self, Nat.add_zero]
          simp [sentCount, hkey]
        · simp only [notifyOfflineGuilds, hg, if_neg, if_false, hrestz]
      · have hlk : lookupA ((g₁, subs₁) :: rest) g = lookupA rest g := by simp [lookupA, h₁]
        have hsub0 : ((notifyOfflineSubs g₁ disp subs₁).2).countP
            (fun n => n.isOfflineFor g cid) = 0 :=
          notifyOfflineSubs_count_other g₁ g disp cid subs₁ h₁
        have hscount : sentCount ((g₁, subs₁) :: rest) g cid = sentCount rest g cid := by
          simp [sentCount, hlk]
        by_cases hg₁ : lookupA gs g₁ = some true
        · simp only [notifyOfflineGuilds, hg₁, if_pos, List.countP_append, hsub0, Nat.zero_add,
            ih hnodup', hscount]
        · simp only [notifyOfflineGuilds, hg₁, if_neg, if_false, ih hnodup', hscount]

theorem notifyLiveGuilds_lookup_none (gs : List (String × Bool)) (disp g : String)
    (dcs : List (String × List DiscordChannel)) (h : lookupA dcs g = none) :
    lookupA (notifyLiveGuilds gs disp dcs).1 g = none := by
  induction dcs with
  | nil => rfl
  | cons p rest ih =>
      obtain ⟨g₁, subs₁⟩ := p
      by_cases h₁ : g₁ = g
      · simp [lookupA, h₁] at h
      · simp only [lookupA, h₁, if_false] at h
        by_cases hg₁ : lookupA gs g₁ = some true
        · simp [notifyLiveGuilds, hg₁, lookupA, h₁, ih h]
        · simp [notifyLiveGuilds, hg₁, lookupA, h₁, ih h]

theorem notifyOfflineGuilds_lookup_none (gs : List (String × Bool)) (disp g : String)
    (dcs : List (String × List DiscordChannel)) (h : lookupA dcs g = none) :
    lookupA (notifyOfflineGuilds gs disp dcs).1 g = none := by
  induction dcs with
  | nil => rfl
  | cons p rest ih =>
      obtain ⟨g₁, subs₁⟩ := p
      by_cases h₁ : g₁ = g
      · simp [lookupA, h₁] at h
      · simp only [lookupA, h₁, if_false] at h
        by_cases hg₁ : lookupA gs g₁ = some true
        · simp [notifyOfflineGuilds, hg₁, lookupA, h₁, ih h]
        · simp [notifyOfflineGuilds, hg₁, lookupA, h₁, ih h]

theorem notifyLiveGuilds_lookup_inactive (gs : List (String × Bool)) (disp g : String)
    (dcs : List (String × List DiscordChannel)) (hg : ¬(lookupA gs g = some true)) :
    lookupA (notifyLiveGuilds gs disp dcs).1 g = lookupA dcs g := by
  induction dcs with
  | nil => rfl
  | cons p rest ih =>
      obtain ⟨g₁, subs₁⟩ := p
      by_cases h₁ : g₁ = g
      · subst h₁
        simp [notifyLiveGuilds, hg, lookupA]
      · by_cases hg₁ : lookupA gs g₁ = some true
        · simp [notifyLiveGuilds, hg₁, lookupA, h₁, ih]
        · simp [notifyLiveGuilds, hg₁, lookupA, h₁, ih]

theorem notifyOfflineGuilds_lookup_inactive (gs : List (String × Bool)) (disp g : String)
    (dcs : List (String × List DiscordChannel)) (hg : ¬(lookupA gs g = some true)) :
    lookupA (notifyOfflineGuilds gs disp dcs).1 g = lookupA dcs g := by
  induction dcs with
  | nil => rfl
  | cons p rest ih =>
      obtain ⟨g₁, subs₁⟩ := p
      by_cases h₁ : g₁ = g
      · subst h₁
        simp [notifyOfflineGuilds, hg, lookupA]
      · by_cases hg₁ : lookupA gs g₁ = some true
        · simp [notifyOfflineGuilds, hg₁, lookupA, h₁, ih]
        · simp [notifyOfflineGuilds, hg₁, lookupA, h₁, ih]

theorem mem_notifyLiveSubs_shape (g disp : String) (subs : List DiscordChannel) (n : Notif)
    (h : n ∈ (notifyLiveSubs g disp subs).2) : ∃ c x, n = Notif.live g c x := by
  induction subs with
  | nil => simp [notifyLiveSubs] at h
  | cons d rest ih =>
      simp only [notifyLiveSubs] at h
      by_cases hd : d.liveNotificationSent
      · rw [if_pos hd] at h
        exact ih h
      · rw [if_neg hd] at h
        simp only [List.mem_cons] at h
        rcases h with h | h
        · exact ⟨d.channelID, disp, h⟩
        · exact ih h

theorem mem_notifyOfflineSubs_shape (g disp : String) (subs : List DiscordChannel) (n : Notif)
    (h : n ∈ (notifyOfflineSubs g disp subs).2) : ∃ c x, n = Notif.offline g c x := by
  induction subs with
  | nil => simp [notifyOfflineSubs] at h
  | cons d rest ih =>
      simp only [notifyOfflineSubs] at h
      by_cases hd : d.liveNotificationSent
      · rw [if_pos hd] at h
        simp only [List.mem_cons] at h
        rcases h with h | h
        · exact ⟨d.channelID, disp, h⟩
        · exact ih h
      · rw [if_neg hd] at h
        exact ih h

theorem mem_notifyLiveGuilds_shape (gs : List (String × Bool)) (disp : String)
    (dcs : List (String × List DiscordChannel)) (n : Notif)
    (h : n ∈ (notifyLiveGuilds gs disp dcs).2) : ∃ g c x, n = Notif.live g c x := by
  induction dcs with
  | nil => simp [notifyLiveGuilds] at h
  | cons p rest ih =>
      obtain ⟨g₁, subs₁⟩ := p
      simp only [notifyLiveGuilds] at h
      by_cases hg₁ : lookupA gs g₁ = some true
      · rw [if_pos hg₁] at h
        simp only [List.mem_append] at h
        rcases h with h | h
        · obtain ⟨c, x, hn⟩ := mem_notifyLiveSubs_shape g₁ disp subs₁ n h
          exact ⟨g₁, c, x, hn⟩
        · exact ih h
      · rw [if_neg hg₁] at h
        exact ih h

theorem mem_notifyOfflineGuilds_shape (gs : List (String × Bool)) (disp : String)
    (dcs : List (String × List DiscordChannel)) (n : Notif)
    (h : n ∈ (notifyOfflineGuilds gs disp dcs).2) : ∃ g c x, n = Notif.offline g c x := by
  induction dcs with
  | nil => simp [notifyOfflineGuilds] at h
  | cons p rest ih =>
      obtain ⟨g₁, subs₁⟩ := p
      simp only [notifyOfflineGuilds] at h
      by_cases hg₁ : lookupA gs g₁ = some true
      · rw [if_pos hg₁] at h
        simp only [List.mem_append] at h
        rcases h with h | h
        · obtain ⟨c, x, hn⟩ := mem_notifyOfflineSubs_shape g₁ disp subs₁ n h
          exact ⟨g₁, c, x, hn⟩
        · exact ih h
      · rw [if_neg hg₁] at h
        exact ih h

theorem exists_live_mem_iff_countP_pos (ns : List Notif) (g cid : String) :
    (∃ x, Notif.live g cid x ∈ ns) ↔ 0 < ns.countP (fun n => n.isLiveFor g cid) := by
  rw [List.countP_pos_iff]
  constructor
  · rintro ⟨x, hx⟩
    exact ⟨Notif.live g cid x, hx, by simp [Notif.isLiveFor]⟩
  · rintro ⟨n, hn, hfor⟩
    cases n with
    | live g' c' x =>
        simp only [Notif.isLiveFor, Bool.and_eq_true, decide_eq_true_eq] at hfor
        exact ⟨x, by rw [hfor.1, hfor.2] at hn; exact hn⟩
    | offline g' c' x => simp [Notif.isLiveFor] at hfor

theorem exists_offline_mem_iff_countP_pos (ns : List Notif) (g cid : String) :
    (∃ x, Notif.offline g cid x ∈ ns) ↔ 0 < ns.countP (fun n => n.isOfflineFor g cid) := by
  rw [List.countP_pos_iff]
  constructor
  · rintro ⟨x, hx⟩
    exact ⟨Notif.offline g cid x, hx, by simp [Notif.isOfflineFor]⟩
  · rintro ⟨n, hn, hfor⟩
    cases n with
    | offline g' c' x =>
        simp only [Notif.isOfflineFor, Bool.and_eq_true, decide_eq_true_eq] at hfor
        exact ⟨x, by rw [hfor.1, hfor.2] at hn; exact hn⟩
    | live g' c' x => simp [Notif.isOfflineFor] at hfor

/-! Debounce-step characterizations. -/

theorem debounceStep_live_branch (gs : List (String × Bool)) (threshold now : Nat)
    (info : TwitchChannelInfo) (hc : info.startTime ≠ 0 ∧ now - info.startTime > threshold) :
    debounceStep gs threshold now info =
      ({ info with discordChannels := (notifyLiveGuilds gs info.displayName info.discordChannels).1 },
       (notifyLiveGuilds gs info.displayName info.discordChannels).2) := by
  simp [debounceStep, hc]

theorem debounceStep_offline_branch (gs : List (String × Bool)) (threshold now : Nat)
    (info : TwitchChannelInfo) (hc1 : ¬(info.startTime ≠ 0 ∧ now - info.startTime > threshold))
    (hc2 : info.endTime ≠ 0 ∧ now - info.endTime > threshold) :
    debounceStep gs threshold now info =
      ({ info with discordChannels := (notifyOfflineGuilds gs info.displayName info.discordChannels).1 },
       (notifyOfflineGuilds gs info.displayName info.discordChannels).2) := by
  simp [debounceStep, hc1, hc2]

theorem debounceStep_idle (gs : List (String × Bool)) (threshold now : Nat)
    (info : TwitchChannelInfo) (hc1 : ¬(info.startTime ≠ 0 ∧ now - info.startTime > threshold))
    (hc2 : ¬(info.endTime ≠ 0 ∧ now - info.endTime > threshold)) :
    debounceStep gs threshold now info = (info, []) := by
  simp [debounceStep, hc1, hc2]

theorem debounceStep_keys (gs : List (String × Bool)) (threshold now : Nat)
    (info : TwitchChannelInfo) :
    (debounceStep gs threshold now info).1.discordChannels.map Prod.fst
      = info.discordChannels.map Prod.fst := by
  unfold debounceStep
  split
  · simp [notifyLiveGuilds_keys]
  · split
    · simp [notifyOfflineGuilds_keys]
    · rfl

theorem updateChannelTimes_dcs (streams : List HelixStream) (now : Nat) (name : String)
    (info : TwitchChannelInfo) :
    (updateChannelTimes streams now name info).discordChannels = info.discordChannels := by
  unfold updateChannelTimes
  split <;> rfl

theorem updateChannelTimes_displayName (streams : List HelixStream) (now : Nat) (name : String)
    (info : TwitchChannelInfo) :
    (updateChannelTimes streams now name info).displayName = info.displayName := by
  unfold updateChannelTimes
  split <;> rfl

theorem updateChannelTimes_found (streams : List HelixStream) (now : Nat) (name : String)
    (info : TwitchChannelInfo) (s : HelixStream)
    (hs : streams.find? (fun s => decide (s.userLogin = name ∧ s.type = "live")) = some s) :
    updateChannelTimes streams now name info
      = { info with streamTitle := s.title, gameID := s.gameID, thumbnailURL := s.thumbnailURL,
                    startTime := s.startedAt, endTime := 0 } := by
  unfold updateChannelTimes
  rw [hs]

theorem updateChannelTimes_absent (streams : List HelixStream) (now : Nat) (name : String)
    (info : TwitchChannelInfo)
    (hs : streams.find? (fun s => decide (s.userLogin = name ∧ s.type = "live")) = none) :
    updateChannelTimes streams now name info
      = { info with startTime := 0, endTime := if info.endTime = 0 then now else info.endTime } := by
  unfold updateChannelTimes
  rw [hs]

theorem unsentCount_map_markSent (cid : String) (subs : List DiscordChannel) :
    (subs.map markSent).countP
      (fun d => decide (d.channelID = cid) && !d.liveNotificationSent) = 0 := by
  rw [List.countP_eq_zero]
  intro d hd
  rcases List.mem_map.mp hd with ⟨e, _, he⟩
  subst he
  simp [markSent]

theorem sentCount_map_markUnsent (subs : List DiscordChannel) (cid : String) :
    (subs.map markUnsent).countP
      (fun d => decide (d.channelID = cid) && d.liveNotificationSent) = 0 := by
  rw [List.countP_eq_zero]
  intro d hd
  rcases List.mem_map.mp hd with ⟨e, _, he⟩
  subst he
  simp [markUnsent]

theorem debounce_live_equation (gs : List (String × Bool)) (threshold now : Nat)
    (g cid : String) (info : TwitchChannelInfo)
    (hnodup : (info.discordChannels.map Prod.fst).Nodup)
    (hoff : info.endTime = 0) :
    ((debounceStep gs threshold now info).2).countP (fun n => n.isLiveFor g cid)
      + unsentCount (debounceStep gs threshold now info).1.discordChannels g cid
      = unsentCount info.discordChannels g cid := by
  by_cases hc : info.startTime ≠ 0 ∧ now - info.startTime > threshold
  · rw [debounceStep_live_branch gs threshold now info hc]
    simp only
    rw [notifyLiveGuilds_count gs info.displayName g cid info.discordChannels hnodup]
    by_cases hg : lookupA gs g = some true
    · rw [if_pos hg]
      cases hsubs : lookupA info.discordChannels g with
      | none =>
          rw [unsentCount, unsentCount, hsubs,
            notifyLiveGuilds_lookup_none gs info.displayName g info.discordChannels hsubs]
          simp
      | some subs =>
          rw [unsentCount, unsentCount, hsubs,
            notifyLiveGuilds_lookup_active gs info.displayName g info.discordChannels subs hg hsubs]
          simp only [Option.getD_some]
          rw [unsentCount_map_markSent cid subs]
          omega
    · rw [if_neg hg]
      rw [unsentCount, unsentCount,
        notifyLiveGuilds_lookup_inactive gs info.displayName g info.discordChannels hg]
      simp
  · have hc2 : ¬(info.endTime ≠ 0 ∧ now - info.endTime > threshold) := by
      intro hx
      exact hx.1 hoff
    rw [debounceStep_idle gs threshold now info hc hc2]
    simp

theorem channelCycles_live_count (gs : List (String × Bool)) (threshold : Nat)
    (name g cid : String) (steps : List (List HelixStream × Nat)) :
    ∀ info : TwitchChannelInfo,
    (info.discordChannels.map Prod.fst).Nodup →
    (∀ st ∈ steps, ∃ s ∈ st.1, s.userLogin = name ∧ s.type = "live") →
    ((channelCycles gs threshold name steps info).2).countP (fun n => n.isLiveFor g cid)
      + unsentCount (channelCycles gs threshold name steps info).1.discordChannels g cid
      = unsentCount info.discordChannels g cid := by
  induction steps with
  | nil => intro info _ _; simp [channelCycles]
  | cons st rest ih =>
      intro info hnodup hsteps
      obtain ⟨streams, now⟩ := st
      obtain ⟨s, hsmem, hsprop⟩ := hsteps (streams, now) (by simp)
      have hfind : (streams.find? (fun s => decide (s.userLogin = name ∧ s.type = "live"))).isSome := by
        rw [List.find?_isSome]
        exact ⟨s, hsmem, by simpa using hsprop⟩
      obtain ⟨s₀, hs₀⟩ := Option.isSome_iff_exists.mp hfind
      have hupd := updateChannelTimes_found streams now name info s₀ hs₀
      have hdcs : (updateChannelTimes streams now name info).discordChannels
          = info.discordChannels := updateChannelTimes_dcs streams now name info
      have hend : (updateChannelTimes streams now name info).endTime = 0 := by
        rw [hupd]
      have hstep := debounce_live_equation gs threshold now g cid
        (updateChannelTimes streams now name info) (by rw [hdcs]; exact hnodup) hend
      rw [hdcs] at hstep
      have hnodup' : ((debounceStep gs threshold now
          (updateChannelTimes streams now name info)).1.discordChannels.map Prod.fst).Nodup := by
        rw [debounceStep_keys, hdcs]
        exact hnodup
      have hrest := ih (debounceStep gs threshold now
        (updateChannelTimes streams now name info)).1 hnodup'
        (fun st' hst' => hsteps st' (List.mem_cons_of_mem _ hst'))
      simp only [channelCycles, List.countP_append]
      omega

/-- C3: for a streaming channel with non-zero start time and a
subscription in a community whose status is `true`: (a) a live
notification for the subscription is dispatched in a cycle's debounce
step exactly when the elapsed time since the start time exceeds the
threshold and the subscription's `notificationSent` flag is false; (b) a
firing cycle raises every such flag in that community; (c) across any
sequence of monitor cycles in which the channel is continuously observed
live, at most one live notification is dispatched for the subscription
(given the spec's chat-channel-uniqueness invariant). -/
theorem C3_live_debounce_single_notification (gs : List (String × Bool))
    (threshold now : Nat) (info : TwitchChannelInfo) (g cid : String)
    (subs : List DiscordChannel)
    (hnodup : (info.discordChannels.map Prod.fst).Nodup)
    (hsubs : lookupA info.discordChannels g = some subs)
    (hg : lookupA gs g = some true)
    (hstart : info.startTime ≠ 0) :
    ((∃ x, Notif.live g cid x ∈ (debounceStep gs threshold now info).2) ↔
      (now - info.startTime > threshold
        ∧ ∃ d ∈ subs, d.channelID = cid ∧ d.liveNotificationSent = false))
    ∧ (now - info.startTime > threshold →
        lookupA (debounceStep gs threshold now info).1.discordChannels g
          = some (subs.map markSent))
    ∧ (∀ (name : String) (steps : List (List HelixStream × Nat)),
        (∀ st ∈ steps, ∃ s ∈ st.1, s.userLogin = name ∧ s.type = "live") →
        subs.countP (fun d => decide (d.channelID = cid)) ≤ 1 →
        ((channelCycles gs threshold name steps info).2).countP
          (fun n => n.isLiveFor g cid) ≤ 1) := by
  refine ⟨?_, ?_, ?_⟩
  · rw [exists_live_mem_iff_countP_pos]
    by_cases hd : now - info.startTime > threshold
    · rw [debounceStep_live_branch gs threshold now info ⟨hstart, hd⟩]
      simp only
      rw [notifyLiveGuilds_count gs info.displayName g cid info.discordChannels hnodup,
        if_pos hg, unsentCount, hsubs]
      simp only [Option.getD_some]
      rw [List.countP_pos_iff]
      constructor
      · rintro ⟨d, hdm, hdp⟩
        simp only [Bool.and_eq_true, decide_eq_true_eq, Bool.not_eq_true'] at hdp
        exact ⟨hd, d, hdm, hdp.1, hdp.2⟩
      · rintro ⟨-, d, hdm, h1, h2⟩
        exact ⟨d, hdm, by simp [h1, h2]⟩
    · constructor
      · intro hpos
        exfalso
        have hc : ¬(info.startTime ≠ 0 ∧ now - info.startTime > threshold) := fun hx => hd hx.2
        by_cases hc2 : info.endTime ≠ 0 ∧ now - info.endTime > threshold
        · rw [debounceStep_offline_branch gs threshold now info hc hc2] at hpos
          rw [List.countP_pos_iff] at hpos
          obtain ⟨n, hn, hfor⟩ := hpos
          obtain ⟨g', c', x', hn'⟩ := mem_notifyOfflineGuilds_shape gs info.displayName
            info.discordChannels n hn
          subst hn'
          simp [Notif.isLiveFor] at hfor
        · rw [debounceStep_idle gs threshold now info hc hc2] at hpos
          simp at hpos
      · rintro ⟨hd', -⟩
        exact absurd hd' hd
  · intro hd
    rw [debounceStep_live_branch gs threshold now info ⟨hstart, hd⟩]
    simp only
    exact notifyLiveGuilds_lookup_active gs info.displayName g info.discordChannels subs hg hsubs
  · intro name steps hsteps huniq
    have heq := channelCycles_live_count gs threshold name g cid steps info hnodup hsteps
    have hle : unsentCount info.discordChannels g cid
        ≤ subs.countP (fun d => decide (d.channelID = cid)) := by
      rw [unsentCount, hsubs]
      simp only [Option.getD_some]
      refine List.countP_mono_left ?_
      intro d hd hp
      simp only [Bool.and_eq_true] at hp
      exact hp.1
    omega

/-- C3 witness: the theorem applied to a live channel ten minutes into a
stream with a five-minute threshold (in seconds: start 100, now 900,
threshold 300). -/
theorem C3_live_debounce_single_notification_witness :
    lookupA (debounceStep [("g1", true)] 300 900 liveInfo).1.discordChannels "g1"
      = some ([{ channelID := "c1", liveNotificationSent := false }].map markSent) :=
  (C3_live_debounce_single_notification [("g1", true)] 300 900 liveInfo "g1" "c1"
    [{ channelID := "c1", liveNotificationSent := false }]
    (by decide) (by decide) (by decide) (by decide)).2.1 (by decide)

theorem debounce_offline_equation (gs : List (String × Bool)) (threshold now : Nat)
    (g cid : String) (info : TwitchChannelInfo)
    (hnodup : (info.discordChannels.map Prod.fst).Nodup)
    (hstart0 : info.startTime = 0) :
    ((debounceStep gs threshold now info).2).countP (fun n => n.isOfflineFor g cid)
      + sentCount (debounceStep gs threshold now info).1.discordChannels g cid
      = sentCount info.discordChannels g cid := by
  have hc1 : ¬(info.startTime ≠ 0 ∧ now - info.startTime > threshold) := by
    simp [hstart0]
  by_cases hc2 : info.endTime ≠ 0 ∧ now - info.endTime > threshold
  · rw [debounceStep_offline_branch gs threshold now info hc1 hc2]
    simp only
    rw [notifyOfflineGuilds_count gs info.displayName g cid info.discordChannels hnodup]
    by_cases hg : lookupA gs g = some true
    · rw [if_pos hg]
      cases hsubs : lookupA info.discordChannels g with
      | none =>
          rw [sentCount, sentCount, hsubs,
            notifyOfflineGuilds_lookup_none gs info.displayName g info.discordChannels hsubs]
          simp
      | some subs =>
          rw [sentCount, sentCount, hsubs,
            notifyOfflineGuilds_lookup_active gs info.displayName g info.discordChannels subs hg hsubs]
          simp only [Option.getD_some]
          rw [sentCount_map_markUnsent subs cid]
          omega
    · rw [if_neg hg]
      rw [sentCount, sentCount,
        notifyOfflineGuilds_lookup_inactive gs info.displayName g info.discordChannels hg]
      simp
  · rw [debounceStep_idle gs threshold now info hc1 hc2]
    simp

theorem channelCycles_offline_count (gs : List (String × Bool)) (threshold : Nat)
    (name g cid : String) (steps : List (List HelixStream × Nat)) :
    ∀ info : TwitchChannelInfo,
    (info.discordChannels.map Prod.fst).Nodup →
    (∀ st ∈ steps, ∀ s ∈ st.1, ¬(s.userLogin = name ∧ s.type = "live")) →
    ((channelCycles gs threshold name steps info).2).countP (fun n => n.isOfflineFor g cid)
      + sentCount (channelCycles gs threshold name steps info).1.discordChannels g cid
      = sentCount info.discordChannels g cid := by
  induction steps with
  | nil => intro info _ _; simp [channelCycles]
  | cons st rest ih =>
      intro info hnodup hsteps
      obtain ⟨streams, now⟩ := st
      have hfind : streams.find? (fun s => decide (s.userLogin = name ∧ s.type = "live")) = none := by
        rw [List.find?_eq_none]
        intro s hs
        simpa using hsteps (streams, now) (by simp) s hs
      have hupd := updateChannelTimes_absent streams now name info hfind
      have hdcs : (updateChannelTimes streams now name info).discordChannels
          = info.discordChannels := updateChannelTimes_dcs streams now name info
      have hst0 : (updateChannelTimes streams now name info).startTime = 0 := by
        rw [hupd]
      have hstep := debounce_offline_equation gs threshold now g cid
        (updateChannelTimes streams now name info) (by rw [hdcs]; exact hnodup) hst0
      rw [hdcs] at hstep
      have hnodup' : ((debounceStep gs threshold now
          (updateChannelTimes streams now name info)).1.discordChannels.map Prod.fst).Nodup := by
        rw [debounceStep_keys, hdcs]
        exact hnodup
      have hrest := ih (debounceStep gs threshold now
        (updateChannelTimes streams now name info)).1 hnodup'
        (fun st' hst' => hsteps st' (List.mem_cons_of_mem _ hst'))
      simp only [channelCycles, List.countP_append]
      omega

theorem channelCycles_offline_clears (gs : List (String × Bool)) (threshold : Nat)
    (name g cid : String) (hg : lookupA gs g = some true) :
    ∀ (steps : List (List HelixStream × Nat)) (info : TwitchChannelInfo) (e : Nat),
    (info.discordChannels.map Prod.fst).Nodup →
    (∀ st ∈ steps, ∀ s ∈ st.1, ¬(s.userLogin = name ∧ s.type = "live")) →
    info.endTime = e → e ≠ 0 →
    (∃ st ∈ steps, st.2 - e > threshold) →
    sentCount (channelCycles gs threshold name steps info).1.discordChannels g cid = 0 := by
  intro steps
  induction steps with
  | nil =>
      intro info e _ _ _ _ hex
      simp at hex
  | cons st rest ih =>
      intro info e hnodup hsteps he hne hex
      obtain ⟨streams, now⟩ := st
      have hfind : streams.find? (fun s => decide (s.userLogin = name ∧ s.type = "live")) = none := by
        rw [List.find?_eq_none]
        intro s hs
        simpa using hsteps (streams, now) (by simp) s hs
      have hupd := updateChannelTimes_absent streams now name info hfind
      have hdcs : (updateChannelTimes streams now name info).discordChannels
          = info.discordChannels := updateChannelTimes_dcs streams now name info
      have hst0 : (updateChannelTimes streams now name info).startTime = 0 := by
        rw [hupd]
      have hend1 : (updateChannelTimes streams now name info).endTime = e := by
        rw [hupd]
        simp [he, hne]
      by_cases hq : now - e > threshold
      · have hc1 : ¬((updateChannelTimes streams now name info).startTime ≠ 0
            ∧ now - (updateChannelTimes streams now name info).startTime > threshold) := by
          simp [hst0]
        have hc2 : (updateChannelTimes streams now name info).endTime ≠ 0
            ∧ now - (updateChannelTimes streams now name info).endTime > threshold := by
          rw [hend1]
          exact ⟨hne, hq⟩
        have hbr := debounceStep_offline_branch gs threshold now
          (updateChannelTimes streams now name info) hc1 hc2
        have hzero : sentCount (debounceStep gs threshold now
            (updateChannelTimes streams now name info)).1.discordChannels g cid = 0 := by
          rw [hbr]
          simp only
          cases hsubs : lookupA (updateChannelTimes streams now name info).discordChannels g with
          | none =>
              rw [sentCount, notifyOfflineGuilds_lookup_none gs _ g _ hsubs]
              simp
          | some subs =>
              rw [sentCount, notifyOfflineGuilds_lookup_active gs _ g _ subs hg hsubs]
              simp only [Option.getD_some]
              exact sentCount_map_markUnsent subs cid
        have hnodup' : ((debounceStep gs threshold now
            (updateChannelTimes streams now name info)).1.discordChannels.map Prod.fst).Nodup := by
          rw [debounceStep_keys, hdcs]
          exact hnodup
        have hrest := channelCycles_offline_count gs threshold name g cid rest
          (debounceStep gs threshold now (updateChannelTimes streams now name info)).1 hnodup'
          (fun st' hst' => hsteps st' (List.mem_cons_of_mem _ hst'))
        rw [hzero] at hrest
        simp only [channelCycles]
        omega
      · have hc1 : ¬((updateChannelTimes streams now name info).startTime ≠ 0
            ∧ now - (updateChannelTimes streams now name info).startTime > threshold) := by
          simp [hst0]
        have hc2 : ¬((updateChannelTimes streams now name info).endTime ≠ 0
            ∧ now - (updateChannelTimes streams now name info).endTime > threshold) := by
          rw [hend1]
          intro hx
          exact hq hx.2
        have hid := debounceStep_idle gs threshold now
          (updateChannelTimes streams now name info) hc1 hc2
        have hex' : ∃ st ∈ rest, st.2 - e > threshold := by
          rcases hex with ⟨st', hst', hq'⟩
          rcases List.mem_cons.mp hst' with hhead | htail
          · exfalso
            rw [hhead] at hq'
            exact hq hq'
          · exact ⟨st', htail, hq'⟩
        simp only [channelCycles, hid]
        exact ih (updateChannelTimes streams now name info) e
          (by rw [hdcs]; exact hnodup)
          (fun st' hst' => hsteps st' (List.mem_cons_of_mem _ hst'))
          hend1 hne hex'

/-- C6 counterexample: a channel offline past the threshold whose only
subscription (flag raised) belongs to guild `g2`, absent from the
guild-status map: the cycle dispatches no offline notification and the
flag does not revert, refuting the claim's unconditional "exactly one
plain-text offline notification is sent per subscription whose
notificationSent is true". -/
theorem C6_counterexample :
    (debounceStep [] 10 100 g2Info).2 = []
    ∧ g2Info.startTime = 0 ∧ g2Info.endTime ≠ 0 ∧ 100 - g2Info.endTime > 10
    ∧ lookupA g2Info.discordChannels "g2"
        = some [{ channelID := "c1", liveNotificationSent := true }]
    ∧ (debounceStep [] 10 100 g2Info).1 = g2Info := by decide

/-- C6 (amended): offline sampling zeroes the start time and stamps the
end time only when it is still zero; once the end time is non-zero and
the elapsed time exceeds the threshold, exactly one plain-text offline
notification is dispatched per subscription with `notificationSent` true
in a community whose guild status is present and `true`, and the flag
reverts to false. -/
theorem C6_offline_debounce_single_notification (gs : List (String × Bool))
    (threshold : Nat) (info : TwitchChannelInfo) (g cid : String)
    (subs : List DiscordChannel)
    (hnodup : (info.discordChannels.map Prod.fst).Nodup)
    (hsubs : lookupA info.discordChannels g = some subs)
    (hg : lookupA gs g = some true) :
    (∀ (streams : List HelixStream) (now : Nat) (name : String),
      (∀ s ∈ streams, ¬(s.userLogin = name ∧ s.type = "live")) →
      updateChannelTimes streams now name info
        = { info with startTime := 0,
                      endTime := if info.endTime = 0 then now else info.endTime })
    ∧ (∀ now : Nat, info.startTime = 0 →
        ((∃ x, Notif.offline g cid x ∈ (debounceStep gs threshold now info).2) ↔
          (info.endTime ≠ 0 ∧ now - info.endTime > threshold
            ∧ ∃ d ∈ subs, d.channelID = cid ∧ d.liveNotificationSent = true)))
    ∧ (∀ now : Nat, info.startTime = 0 → info.endTime ≠ 0 →
        now - info.endTime > threshold →
        lookupA (debounceStep gs threshold now info).1.discordChannels g
          = some (subs.map markUnsent))
    ∧ (∀ (name : String) (steps : List (List HelixStream × Nat)),
        (∀ st ∈ steps, ∀ s ∈ st.1, ¬(s.userLogin = name ∧ s.type = "live")) →
        info.startTime = 0 → info.endTime ≠ 0 →
        (∃ st ∈ steps, st.2 - info.endTime > threshold) →
        sentCount info.discordChannels g cid = 1 →
        ((channelCycles gs threshold name steps info).2).countP
          (fun n => n.isOfflineFor g cid) = 1) := by
  refine ⟨?_, ?_, ?_, ?_⟩
  · intro streams now name hoffline
    refine updateChannelTimes_absent streams now name info ?_
    rw [List.find?_eq_none]
    intro s hs
    simpa using hoffline s hs
  · intro now hstart0
    have hc1 : ¬(info.startTime ≠ 0 ∧ now - info.startTime > threshold) := by simp [hstart0]
    rw [exists_offline_mem_iff_countP_pos]
    by_cases hc2 : info.endTime ≠ 0 ∧ now - info.endTime > threshold
    · rw [debounceStep_offline_branch gs threshold now info hc1 hc2]
      simp only
      rw [notifyOfflineGuilds_count gs info.displayName g cid info.discordChannels hnodup,
        if_pos hg, sentCount, hsubs]
      simp only [Option.getD_some]
      rw [List.countP_pos_iff]
      constructor
      · rintro ⟨d, hdm, hdp⟩
        simp only [Bool.and_eq_true, decide_eq_true_eq] at hdp
        exact ⟨hc2.1, hc2.2, d, hdm, hdp.1, hdp.2⟩
      · rintro ⟨-, -, d, hdm, h1, h2⟩
        exact ⟨d, hdm, by simp [h1, h2]⟩
    · rw [debounceStep_idle gs threshold now info hc1 hc2]
      simp only [List.countP_nil]
      constructor
      · intro hx
        simp at hx
      · rintro ⟨he, hq, -⟩
        exact absurd ⟨he, hq⟩ hc2
  · intro now hstart0 hend hq
    have hc1 : ¬(info.startTime ≠ 0 ∧ now - info.startTime > threshold) := by simp [hstart0]
    rw [debounceStep_offline_branch gs threshold now info hc1 ⟨hend, hq⟩]
    simp only
    exact notifyOfflineGuilds_lookup_active gs info.displayName g info.discordChannels subs hg hsubs
  · intro name steps hsteps hstart0 hend hex hsent
    have heq := channelCycles_offline_count gs threshold name g cid steps info hnodup hsteps
    have hclear := channelCycles_offline_clears gs threshold name g cid hg steps info
      info.endTime hnodup hsteps rfl hend hex
    omega

/-- C6 amended witness: one offline cycle past the threshold on a
channel whose guild `g2` is present and active, with the subscription
flag raised: exactly one offline notification. -/
theorem C6_offline_debounce_single_notification_witness :
    ((channelCycles [("g2", true)] 10 "alice" [([], 100)] g2Info).2).countP
      (fun n => n.isOfflineFor "g2" "c1") = 1 :=
  (C6_offline_debounce_single_notification [("g2", true)] 10 g2Info "g2" "c1"
    [{ channelID := "c1", liveNotificationSent := true }]
    (by decide) (by decide) (by decide)).2.2.2 "alice" [([], 100)]
    (by intro st hst s hs; simp only [List.mem_singleton] at hst; subst hst; simp at hs)
    (by decide) (by decide)
    ⟨([], 100), by simp, by decide⟩ (by decide)

/-- C4 witness: registering `alice` twice for guild `g1`, channel `c1`. -/
theorem C4_second_register_already_registered_witness :
    countSubs (registerChannel emptySession true false [aliceUser] "alice" "g1" "c1").2.1.twitchData "alice" "g1" "c1" = 1
    ∧ registerChannel (registerChannel emptySession true false [aliceUser] "alice" "g1" "c1").2.1 true false [aliceUser] "alice" "g1" "c1"
        = (.errTwitchUserRegistered, (registerChannel emptySession true false [aliceUser] "alice" "g1" "c1").2.1, none) :=
  C4_second_register_already_registered emptySession true false true false
    [aliceUser] [aliceUser] "alice" "g1" "c1" (by decide)

/-! Lemmas for the register-then-unregister round trip. -/

theorem insertA_lookup_self_eq {α : Type} (l : List (String × α)) (k : String) (v : α)
    (h : lookupA l k = some v) : insertA l k v = l := by
  induction l with
  | nil => simp [lookupA] at h
  | cons p rest ih =>
      obtain ⟨a, w⟩ := p
      by_cases hp : a = k
      · subst hp
        simp only [lookupA, if_pos, Option.some.injEq] at h
        simp [insertA, h]
      · simp only [lookupA, hp, if_false] at h
        simp [insertA, hp, ih h]

theorem eraseA_eq_nil_iff {α : Type} (l : List (String × α)) (k : String) :
    eraseA l k = [] ↔ ∀ p ∈ l, p.1 = k := by
  induction l with
  | nil => simp [eraseA]
  | cons p rest ih =>
      obtain ⟨a, w⟩ := p
      by_cases hp : a = k
      · subst hp
        simp [eraseA, ih]
      · simp [eraseA, hp]

theorem keyCount_cons (a b g cid : String) (ks : List (String × String)) :
    keyCount ((a, b) :: ks) g cid
      = keyCount ks g cid + (if a = g ∧ b = cid then 1 else 0) := by
  simp [keyCount, List.countP_cons]

theorem keyCount_zero_nil (keys : List (String × String))
    (h : ∀ g cid, keyCount keys g cid = 0) : keys = [] := by
  cases keys with
  | nil => rfl
  | cons k rest =>
      exfalso
      obtain ⟨g, cid⟩ := k
      have := h g cid
      rw [keyCount_cons] at this
      simp at this

theorem findSubIdx_some_of_countP_pos (cid : String) (subs : List DiscordChannel)
    (h : 0 < subs.countP (fun d => decide (d.channelID = cid))) :
    ∃ i, findSubIdx cid subs = some i := by
  cases hf : findSubIdx cid subs with
  | some i => exact ⟨i, rfl⟩
  | none =>
      exfalso
      have hall := (findSubIdx_eq_none_iff cid subs).mp hf
      rw [List.countP_pos_iff] at h
      obtain ⟨d, hd, hp⟩ := h
      exact hall d hd (by simpa using hp)

theorem unregisterAll_deletes (c : String) :
    ∀ (keys : List (String × String)) (t : Session) (info : TwitchChannelInfo),
    lookupA t.twitchData c = some info →
    (info.discordChannels.map Prod.fst).Nodup →
    (∀ p ∈ info.discordChannels, p.2 ≠ []) →
    info.discordChannels ≠ [] →
    (∀ g cid, subCount info.discordChannels g cid = keyCount keys g cid) →
    (unregisterAll c t keys).twitchData = eraseA t.twitchData c
    ∧ (unregisterAll c t keys).name = t.name
    ∧ (unregisterAll c t keys).isConnected = t.isConnected := by
  intro keys
  induction keys with
  | nil =>
      intro t info hl hnodup hne hdcs hcount
      exfalso
      cases hd : info.discordChannels with
      | nil => exact hdcs hd
      | cons p prest =>
          obtain ⟨g₀, subs₀⟩ := p
          have hsubs : lookupA info.discordChannels g₀ = some subs₀ := by
            rw [hd]; simp [lookupA]
          have hsubs₀ne : subs₀ ≠ [] := hne (g₀, subs₀) (by rw [hd]; simp)
          cases hsub : subs₀ with
          | nil => exact hsubs₀ne hsub
          | cons d ds =>
              have hpos : 0 < subCount info.discordChannels g₀ d.channelID := by
                rw [subCount, hsubs]
                simp only [Option.getD_some, hsub]
                rw [List.countP_pos_iff]
                exact ⟨d, by simp, by simp⟩
              rw [hcount g₀ d.channelID] at hpos
              simp [keyCount] at hpos
  | cons k rest ih =>
      intro t info hl hnodup hne hdcs hcount
      obtain ⟨g, cid⟩ := k
      have hpos : 0 < subCount info.discordChannels g cid := by
        rw [hcount g cid, keyCount_cons, if_pos (And.intro rfl rfl)]
        omega
      cases hsubs : lookupA info.discordChannels g with
      | none => rw [subCount, hsubs] at hpos; simp at hpos
      | some subs =>
          have hgd : (lookupA info.discordChannels g).getD [] = subs := by rw [hsubs]; rfl
          rw [subCount, hsubs] at hpos
          simp only [Option.getD_some] at hpos
          obtain ⟨i, hfind⟩ := findSubIdx_some_of_countP_pos cid subs hpos
          obtain ⟨hilen, hicid⟩ := findSubIdx_some cid subs i hfind
          have hc_cid : subs.countP (fun d => decide (d.channelID = cid))
              = (remove subs i).countP (fun d => decide (d.channelID = cid)) + 1 := by
            rw [remove_countP subs i hilen (fun d => decide (d.channelID = cid))]
            rw [hicid]
            simp
          have hc_other : ∀ cid', cid' ≠ cid →
              subs.countP (fun d => decide (d.channelID = cid'))
                = (remove subs i).countP (fun d => decide (d.channelID = cid')) := by
            intro cid' hcc
            rw [remove_countP subs i hilen (fun d => decide (d.channelID = cid'))]
            rw [hicid]
            simp [Ne.symm hcc]
          have hkc : subs.countP (fun d => decide (d.channelID = cid))
              = keyCount rest g cid + 1 := by
            have := hcount g cid
            rw [subCount, hsubs, keyCount_cons] at this
            simpa using this
          have hkother : ∀ cid', cid' ≠ cid →
              subs.countP (fun d => decide (d.channelID = cid'))
                = keyCount rest g cid' := by
            intro cid' hcc
            have := hcount g cid'
            rw [subCount, hsubs, keyCount_cons] at this
            simpa [Ne.symm hcc] using this
          have hgother : ∀ g' cid', g' ≠ g →
              subCount info.discordChannels g' cid' = keyCount rest g' cid' := by
            intro g' cid' hgg
            have := hcount g' cid'
            rw [keyCount_cons] at this
            simpa [Ne.symm hgg] using this
          cases hs : (remove subs i).isEmpty with
          | true =>
              have hsubnil : remove subs i = [] := by simpa using hs
              have hlen1 : subs.length = 1 := by
                have := remove_length subs i hilen
                rw [hsubnil] at this
                simpa using this.symm
              have hsingle : ∀ cid', subs.countP (fun d => decide (d.channelID = cid'))
                  = if cid' = cid then 1 else 0 := by
                intro cid'
                by_cases hcc : cid' = cid
                · subst hcc
                  rw [if_pos rfl, hc_cid, hsubnil]
                  simp
                · rw [if_neg hcc, hc_other cid' hcc, hsubnil]
                  simp
              have hgzero : ∀ cid', keyCount rest g cid' = 0 := by
                intro cid'
                by_cases hcc : cid' = cid
                · have h1 := hkc
                  rw [hsingle cid, if_pos rfl] at h1
                  rw [hcc]
                  omega
                · have h1 := hkother cid' hcc
                  rw [hsingle cid', if_neg hcc] at h1
                  omega
              cases hd2 : (eraseA info.discordChannels g).isEmpty with
              | true =>
                  have hallg : ∀ p ∈ info.discordChannels, p.1 = g :=
                    (eraseA_eq_nil_iff info.discordChannels g).mp (by simpa using hd2)
                  have hrest0 : ∀ g' cid', keyCount rest g' cid' = 0 := by
                    intro g' cid'
                    by_cases hgg : g' = g
                    · subst hgg; exact hgzero cid'
                    · have hlnone : lookupA info.discordChannels g' = none := by
                        rw [lookupA_eq_none_iff]
                        intro p hp
                        rw [hallg p hp]
                        exact fun e => hgg e.symm
                      have := hgother g' cid' hgg
                      rw [subCount, hlnone] at this
                      simpa using this.symm
                  have hrestnil : rest = [] := keyCount_zero_nil rest hrest0
                  subst hrestnil
                  have hstep : (unregisterChannel t c g cid).2.1
                      = { t with twitchData := eraseA t.twitchData c } := by
                    simp [unregisterChannel, hl, hgd, hfind, hs, hd2]
                  simp only [unregisterAll, hstep]
                  simp
              | false =>
                  have hstep : (unregisterChannel t c g cid).2.1
                      = { t with twitchData := (insertA t.twitchData c ({ info with discordChannels := eraseA info.discordChannels g })) } := by
                    simp [unregisterChannel, hl, hgd, hfind, hs, hd2]
                  simp only [unregisterAll, hstep]
                  have hres := ih
                    { t with twitchData := (insertA t.twitchData c ({ info with discordChannels := eraseA info.discordChannels g })) }
                    { info with discordChannels := eraseA info.discordChannels g }
                    (lookupA_insertA_self _ _ _)
                    (by simpa using nodup_keys_eraseA info.discordChannels g hnodup)
                    (by intro p hp; exact hne p (mem_eraseA hp))
                    (by simpa using hd2)
                    ?_
                  · refine ⟨?_, hres.2.1, hres.2.2⟩
                    rw [hres.1]
                    simp only
                    rw [eraseA_insertA]
                  · intro g' cid'
                    simp only
                    by_cases hgg : g' = g
                    · subst hgg
                      rw [subCount, lookupA_eraseA_self]
                      simpa using (hgzero cid').symm
                    · rw [subCount, lookupA_eraseA_ne info.discordChannels g g' hgg]
                      exact hgother g' cid' hgg
          | false =>
              have hins : (insertA info.discordChannels g (remove subs i)).isEmpty = false :=
                List.isEmpty_eq_false.mpr (insertA_ne_nil _ _ _)
              have hstep : (unregisterChannel t c g cid).2.1
                  = { t with twitchData := (insertA t.twitchData c ({ info with discordChannels := insertA info.discordChannels g (remove subs i) })) } := by
                simp [unregisterChannel, hl, hgd, hfind, hs, hins]
              simp only [unregisterAll, hstep]
              have hres := ih
                { t with twitchData := (insertA t.twitchData c ({ info with discordChannels := insertA info.discordChannels g (remove subs i) })) }
                { info with discordChannels := insertA info.discordChannels g (remove subs i) }
                (lookupA_insertA_self _ _ _)
                (by simpa using nodup_keys_insertA info.discordChannels g (remove subs i) hnodup)
                ?_ ?_ ?_
              · refine ⟨?_, hres.2.1, hres.2.2⟩
                rw [hres.1]
                simp only
                rw [eraseA_insertA]
              · intro p hp
                simp only at hp
                rcases mem_insertA hp with hpe | hpm
                · subst hpe
                  simpa using List.isEmpty_eq_false.mp hs
                · exact hne p hpm
              · simp only
                exact insertA_ne_nil _ _ _
              · intro g' cid'
                simp only [subCount]
                by_cases hgg : g' = g
                · subst hgg
                  rw [lookupA_insertA_self]
                  simp only [Option.getD_some]
                  by_cases hcc : cid' = cid
                  · subst hcc
                    omega
                  · rw [← hc_other cid' hcc]
                    exact hkother cid' hcc
                · rw [lookupA_insertA_ne info.discordChannels g g' (remove subs i) hgg]
                  exact hgother g' cid' hgg

theorem subCount_withNewSub (info : TwitchChannelInfo) (g cid g' cid' : String) :
    subCount (withNewSub info g cid).discordChannels g' cid'
      = subCount info.discordChannels g' cid' + (if g = g' ∧ cid = cid' then 1 else 0) := by
  simp only [withNewSub, subCount]
  by_cases hg : g' = g
  · subst hg
    rw [lookupA_insertA_self]
    simp only [Option.getD_some, List.countP_append]
    by_cases hc : cid = cid'
    · simp [hc]
    · simp [hc]
  · rw [lookupA_insertA_ne _ _ _ _ hg]
    have hcond : ¬(g = g' ∧ cid = cid') := fun h => hg h.1.symm
    simp [hcond]

theorem registerAll_known (c : String) (tok gerr : Bool) (users : List HelixUser) :
    ∀ (keys : List (String × String)) (t : Session) (info : TwitchChannelInfo),
    lookupA t.twitchData c = some info →
    (info.discordChannels.map Prod.fst).Nodup →
    (∀ p ∈ info.discordChannels, p.2 ≠ []) →
    (∀ k ∈ keys, subCount info.discordChannels k.1 k.2 = 0) →
    keys.Nodup →
    ∃ info' : TwitchChannelInfo,
      (registerAll c tok gerr users t keys).twitchData = insertA t.twitchData c info'
      ∧ (info'.discordChannels.map Prod.fst).Nodup
      ∧ (∀ p ∈ info'.discordChannels, p.2 ≠ [])
      ∧ (∀ g cid, subCount info'.discordChannels g cid
          = subCount info.discordChannels g cid + keyCount keys g cid)
      ∧ (registerAll c tok gerr users t keys).name = t.name
      ∧ (registerAll c tok gerr users t keys).isConnected = t.isConnected := by
  intro keys
  induction keys with
  | nil =>
      intro t info hl hnodup hne hzero hknodup
      refine ⟨info, ?_, hnodup, hne, ?_, rfl, rfl⟩
      · simp only [registerAll]
        exact (insertA_lookup_self_eq t.twitchData c info hl).symm
      · intro g cid
        simp [keyCount]
  | cons k rest ih =>
      intro t info hl hnodup hne hzero hknodup
      obtain ⟨g, cid⟩ := k
      have hz : subCount info.discordChannels g cid = 0 := hzero (g, cid) (by simp)
      have hfind : findSubIdx cid ((lookupA info.discordChannels g).getD []) = none := by
        rw [findSubIdx_eq_none_iff]
        intro d hd
        rw [subCount] at hz
        have := List.countP_eq_zero.mp hz d hd
        simpa using this
      have heq := registerKnown_appends hl hfind
      have hreg : (registerChannel t tok gerr users c g cid).2.1
          = { t with twitchData := (insertA t.twitchData c (withNewSub info g cid)) } := by
        simp only [registerChannel, hl]
        rw [heq]
      have hl1 : lookupA ({ t with twitchData := (insertA t.twitchData c (withNewSub info g cid)) } : Session).twitchData c
          = some (withNewSub info g cid) := lookupA_insertA_self _ _ _
      have hnodup1 : ((withNewSub info g cid).discordChannels.map Prod.fst).Nodup := by
        simp only [withNewSub]
        exact nodup_keys_insertA _ _ _ hnodup
      have hne1 : ∀ p ∈ (withNewSub info g cid).discordChannels, p.2 ≠ [] := by
        intro p hp
        simp only [withNewSub] at hp
        rcases mem_insertA hp with hpe | hpm
        · subst hpe; simp
        · exact hne p hpm
      have hknodup' : rest.Nodup := (List.nodup_cons.mp hknodup).2
      have hknotin : (g, cid) ∉ rest := (List.nodup_cons.mp hknodup).1
      have hzero1 : ∀ k ∈ rest, subCount (withNewSub info g cid).discordChannels k.1 k.2 = 0 := by
        intro k hk
        rw [subCount_withNewSub]
        have hkz := hzero k (List.mem_cons_of_mem _ hk)
        have hkne : ¬(g = k.1 ∧ cid = k.2) := by
          rintro ⟨h1, h2⟩
          exact hknotin (by obtain ⟨k1, k2⟩ := k; simp only at h1 h2; rw [← h1, ← h2] at hk; exact hk)
        rw [hkz, if_neg hkne]
      obtain ⟨info', h1, h2, h3, h4, h5, h6⟩ := ih
        { t with twitchData := (insertA t.twitchData c (withNewSub info g cid)) }
        (withNewSub info g cid) hl1 hnodup1 hne1 hzero1 hknodup'
      refine ⟨info', ?_, h2, h3, ?_, ?_, ?_⟩
      · simp only [registerAll, hreg]
        rw [h1]
        simp only
        rw [insertA_insertA]
      · intro g' cid'
        rw [h4 g' cid', subCount_withNewSub, keyCount_cons]
        by_cases hcond : g = g' ∧ cid = cid'
        · rw [if_pos hcond]
          omega
        · rw [if_neg hcond]
          omega
      · simp only [registerAll, hreg]
        exact h5
      · simp only [registerAll, hreg]
        exact h6

theorem registerChannel_fresh (t : Session) (gerr : Bool) (u : HelixUser) (us : List HelixUser)
    (c g cid : String) (hl : lookupA t.twitchData c = none) :
    (registerChannel t true gerr (u :: us) c g cid).2.1
      = { t with twitchData := (insertA t.twitchData c (withNewSub (newChannelInfo u) g cid)) } := by
  have hl1 : lookupA ({ t with twitchData := insertA t.twitchData c (newChannelInfo u) } : Session).twitchData c
      = some (newChannelInfo u) := lookupA_insertA_self _ _ _
  have hf1 : findSubIdx cid ((lookupA (newChannelInfo u).discordChannels g).getD []) = none := rfl
  simp only [registerChannel, hl, if_pos]
  rw [registerKnown_appends hl1 hf1]
  simp only [insertA_insertA]

/-- C5: unregistering an existing subscription succeeds and removes
exactly that subscription (the count for its key drops by one), and the
cascading cleanup is complete: registering a fresh streaming channel
under any non-empty duplicate-free set of (community, chat channel) keys
and then unregistering every one of them returns the registry exactly to
its pre-registration state (the channel entry is deleted entirely). -/
theorem C5_unregister_cascade_roundtrip :
    (∀ (t : Session) (c g cid : String), 0 < countSubs t.twitchData c g cid →
        (unregisterChannel t c g cid).1 = true
        ∧ countSubs (unregisterChannel t c g cid).2.1.twitchData c g cid
            = countSubs t.twitchData c g cid - 1)
    ∧ (∀ (t : Session) (gerr : Bool) (u : HelixUser) (us : List HelixUser) (c : String)
        (keys : List (String × String)),
        lookupA t.twitchData c = none → keys ≠ [] → keys.Nodup →
        (unregisterAll c (registerAll c true gerr (u :: us) t keys) keys).twitchData
          = t.twitchData) := by
  constructor
  · intro t c g cid hpos
    cases hl : lookupA t.twitchData c with
    | none => simp [countSubs, hl] at hpos
    | some info =>
        simp only [countSubs, hl] at hpos
        cases hsubs : lookupA info.discordChannels g with
        | none => rw [hsubs] at hpos; simp at hpos
        | some subs =>
            rw [hsubs] at hpos
            simp only [Option.getD_some] at hpos
            have hgd : (lookupA info.discordChannels g).getD [] = subs := by rw [hsubs]; rfl
            obtain ⟨i, hfind⟩ := findSubIdx_some_of_countP_pos cid subs hpos
            obtain ⟨hilen, hicid⟩ := findSubIdx_some cid subs i hfind
            have hc_cid : subs.countP (fun d => decide (d.channelID = cid))
                = (remove subs i).countP (fun d => decide (d.channelID = cid)) + 1 := by
              rw [remove_countP subs i hilen (fun d => decide (d.channelID = cid))]
              rw [hicid]
              simp
            have hflag : (unregisterChannel t c g cid).1 = true := by
              simp [unregisterChannel, hl, hgd, hfind]
            refine ⟨hflag, ?_⟩
            cases hs : (remove subs i).isEmpty with
            | true =>
                have hrnil : remove subs i = [] := by simpa using hs
                have hone : subs.countP (fun d => decide (d.channelID = cid)) = 1 := by
                  rw [hc_cid, hrnil]
                  simp
                cases hd2 : (eraseA info.discordChannels g).isEmpty with
                | true =>
                    have hstep : (unregisterChannel t c g cid).2.1
                        = { t with twitchData := eraseA t.twitchData c } := by
                      simp [unregisterChannel, hl, hgd, hfind, hs, hd2]
                    rw [hstep]
                    simp only [countSubs, hl, hsubs, Option.getD_some]
                    rw [lookupA_eraseA_self]
                    rw [hone]
                | false =>
                    have hstep : (unregisterChannel t c g cid).2.1
                        = { t with twitchData := (insertA t.twitchData c ({ info with discordChannels := eraseA info.discordChannels g })) } := by
                      simp [unregisterChannel, hl, hgd, hfind, hs, hd2]
                    rw [hstep]
                    simp only [countSubs, hl, hsubs, Option.getD_some]
                    rw [lookupA_insertA_self]
                    simp only [lookupA_eraseA_self]
                    rw [hone]
                    rfl
            | false =>
                have hins : (insertA info.discordChannels g (remove subs i)).isEmpty = false :=
                  List.isEmpty_eq_false.mpr (insertA_ne_nil _ _ _)
                have hstep : (unregisterChannel t c g cid).2.1
                    = { t with twitchData := (insertA t.twitchData c ({ info with discordChannels := insertA info.discordChannels g (remove subs i) })) } := by
                  simp [unregisterChannel, hl, hgd, hfind, hs, hins]
                rw [hstep]
                simp only [countSubs, hl, hsubs, Option.getD_some]
                rw [lookupA_insertA_self]
                simp only [lookupA_insertA_self, Option.getD_some]
                omega
  · intro t gerr u us c keys hl hne hnodup
    cases keys with
    | nil => exact absurd rfl hne
    | cons k rest =>
        obtain ⟨g₀, cid₀⟩ := k
        have hfresh := registerChannel_fresh t gerr u us c g₀ cid₀ hl
        have hl1 : lookupA ({ t with twitchData := (insertA t.twitchData c (withNewSub (newChannelInfo u) g₀ cid₀)) } : Session).twitchData c
            = some (withNewSub (newChannelInfo u) g₀ cid₀) := lookupA_insertA_self _ _ _
        have hnodup1 : ((withNewSub (newChannelInfo u) g₀ cid₀).discordChannels.map Prod.fst).Nodup := by
          simp [withNewSub, newChannelInfo, insertA]
        have hne1 : ∀ p ∈ (withNewSub (newChannelInfo u) g₀ cid₀).discordChannels, p.2 ≠ [] := by
          intro p hp
          simp only [withNewSub, newChannelInfo] at hp
          simp only [insertA, lookupA] at hp
          simp only [List.mem_singleton] at hp
          subst hp
          simp
        have hknodup' : rest.Nodup := (List.nodup_cons.mp hnodup).2
        have hknotin : (g₀, cid₀) ∉ rest := (List.nodup_cons.mp hnodup).1
        have hzc : ∀ g' cid', subCount (newChannelInfo u).discordChannels g' cid' = 0 := by
          intro g' cid'
          simp [newChannelInfo, subCount, lookupA]
        have hzero1 : ∀ k ∈ rest,
            subCount (withNewSub (newChannelInfo u) g₀ cid₀).discordChannels k.1 k.2 = 0 := by
          intro k hk
          rw [subCount_withNewSub, hzc]
          have hkne : ¬(g₀ = k.1 ∧ cid₀ = k.2) := by
            rintro ⟨h1, h2⟩
            exact hknotin (by obtain ⟨k1, k2⟩ := k; simp only at h1 h2; rw [← h1, ← h2] at hk; exact hk)
          rw [if_neg hkne]
        obtain ⟨info', h1, h2, h3, h4, h5, h6⟩ := registerAll_known c true gerr (u :: us) rest
          { t with twitchData := (insertA t.twitchData c (withNewSub (newChannelInfo u) g₀ cid₀)) }
          (withNewSub (newChannelInfo u) g₀ cid₀) hl1 hnodup1 hne1 hzero1 hknodup'
        have hcounts : ∀ g' cid', subCount info'.discordChannels g' cid'
            = keyCount ((g₀, cid₀) :: rest) g' cid' := by
          intro g' cid'
          rw [h4 g' cid', subCount_withNewSub, hzc, keyCount_cons]
          by_cases hcond : g₀ = g' ∧ cid₀ = cid'
          · rw [if_pos hcond]
            omega
          · rw [if_neg hcond]
            omega
        have hpos0 : 0 < subCount info'.discordChannels g₀ cid₀ := by
          rw [hcounts g₀ cid₀, keyCount_cons, if_pos (And.intro rfl rfl)]
          omega
        have hdcsne : info'.discordChannels ≠ [] := by
          intro hx
          rw [subCount, hx] at hpos0
          simp [lookupA] at hpos0
        have hlreg : lookupA (registerAll c true gerr (u :: us)
            ({ t with twitchData := (insertA t.twitchData c (withNewSub (newChannelInfo u) g₀ cid₀)) } : Session) rest).twitchData c
            = some info' := by
          rw [h1]
          exact lookupA_insertA_self _ _ _
        have hdel := unregisterAll_deletes c ((g₀, cid₀) :: rest)
          (registerAll c true gerr (u :: us)
            ({ t with twitchData := (insertA t.twitchData c (withNewSub (newChannelInfo u) g₀ cid₀)) } : Session) rest)
          info' hlreg h2 h3 hdcsne hcounts
        simp only [registerAll, hfresh]
        rw [hdel.1, h1]
        simp only
        rw [eraseA_insertA, eraseA_insertA]
        exact eraseA_eq_self t.twitchData c hl

/-- C5 witness: registering fresh channel `alice` under two keys and
unregistering both returns the registry of `g2Session` (which has no
`alice2` entry) to exactly its prior value. -/
theorem C5_unregister_cascade_roundtrip_witness :
    (unregisterChannel g2Session "alice" "g2" "c1").1 = true
    ∧ countSubs (unregisterChannel g2Session "alice" "g2" "c1").2.1.twitchData "alice" "g2" "c1"
        = countSubs g2Session.twitchData "alice" "g2" "c1" - 1
    ∧ (unregisterAll "alice2" (registerAll "alice2" true false [aliceUser] g2Session
        [("g1", "c1"), ("g1", "c2")]) [("g1", "c1"), ("g1", "c2")]).twitchData
        = g2Session.twitchData := by
  refine ⟨(C5_unregister_cascade_roundtrip.1 g2Session "alice" "g2" "c1" (by decide)).1,
    (C5_unregister_cascade_roundtrip.1 g2Session "alice" "g2" "c1" (by decide)).2, ?_⟩
  exact C5_unregister_cascade_roundtrip.2 g2Session false aliceUser [] "alice2"
    [("g1", "c1"), ("g1", "c2")] (by decide) (by decide) (by decide)

end DiscordTwitchBot
